import Mathlib

/-!
# Verification of the `aalr` robust spline regression core

Shallow embedding of the repository's three source files:

* `util.py` — the run-length scanner `mask_index` over boolean masks and the
  Hamming distance `dist`;
* `spline_model.py` — the `SplineModel` class: construction, `replace_mask`,
  the lazily cached residual statistic, `inlier_predicate`, the iterative
  `refine` loop, and `cure_knots`;
* `aggregate.py` — `knot_shift_aggregate`, the ensemble aggregator.

Modelling conventions:

* Python floats are modelled as rationals (`ℚ`).
* The external least-squares B-spline solver (`scipy.interpolate.LSQUnivariateSpline`)
  is out of scope per the design (§1/§6 of the spec): it is an abstract
  `Kernel` parameter mapping `(fit-config, t, y, knots, w, query)` to the list
  of predicted values at the query points.  The cached `_spr` evaluator of the
  Python class is represented by re-applying the kernel to the current fields;
  this is equivalent because every field the kernel reads is only changed by
  `replace_mask`, which refreshes the cache.
* Fallible Python code (assertions, `ZeroDivisionError` from `len(y) // nknots`,
  the zero-step slice error in `t[max(N // 2, 1)::N]`, `IndexError` on empty
  arrays) is modelled with `Option`: `none` means the call raises.
* Mutating methods become functions `state → new state` (or `Option` thereof);
  `refine` additionally returns, as an instrumentation component, the number of
  `inlier_predicate` (classification) evaluations it performed.
-/

set_option maxHeartbeats 1600000

namespace Aalr

/-! ## util.py -/

/-- The two states of the scanner in `mask_index` (`"want_0"` / `"want_1"`). -/
inductive ScanState
  | want0
  | want1
deriving DecidableEq

/-- The scanning loop of `mask_index` (util.py lines 31-46): one step per
element of the (sentinel-padded) stream, carrying the enumeration index `i`,
the state, the current chunk `thisres` and the output accumulator `res`. -/
def mask_index_core : List Bool → ℕ → ScanState → List ℕ → List (List ℕ) → List (List ℕ)
  | [], _, _, _, res => res
  | w :: rest, i, ScanState.want0, thisres, res =>
      if w then mask_index_core rest (i + 1) ScanState.want0 thisres res
      else mask_index_core rest (i + 1) ScanState.want1 (thisres ++ [i]) res
  | w :: rest, i, ScanState.want1, thisres, res =>
      if w then mask_index_core rest (i + 1) ScanState.want0 [] (res ++ [thisres ++ [i]])
      else mask_index_core rest (i + 1) ScanState.want1 thisres res

/-- `mask_index` (util.py lines 4-47): convert a boolean mask to the list of
`[start, end)` index pairs of the maximal runs of `false` entries, scanning the
input with a sentinel `true` appended at the end. -/
def mask_index (warray : List Bool) : List (List ℕ) :=
  mask_index_core (warray ++ [true]) 0 ScanState.want0 [] []

/-- `dist` (util.py lines 50-52): Hamming distance between two equal-length
boolean sequences (`np.sum(x ^ y)`).  Call sites booleanize their arguments
first (numpy's `dtype=bool` conversion), so the embedding takes `List Bool`. -/
def dist (x y : List Bool) : ℕ :=
  ((x.zip y).filter fun p => p.1 != p.2).length

/-! ## Numeric helpers used by spline_model.py -/

/-- Insert into a `≤`-sorted list (helper for the median). -/
def insertLe (x : ℚ) : List ℚ → List ℚ
  | [] => [x]
  | y :: rest => if x ≤ y then x :: y :: rest else y :: insertLe x rest

/-- Insertion sort by `≤` (helper for the median). -/
def sortLe : List ℚ → List ℚ
  | [] => []
  | x :: rest => insertLe x (sortLe rest)

/-- `np.nanmedian` on a list of rationals (no NaNs can occur over `ℚ`): sort,
then take the middle element (odd length) or the mean of the two middle
elements (even length).  The empty list is mapped to `0`; numpy would produce
NaN there, a value outside `ℚ`.  The only consumer of the statistic is the
classification band in `inlier_predicate`, where both NaN and `0.0` make
every comparison fail (all-outlier); the embedding's `rmad ≠ 0` guard there
reproduces that behavior, so mapping the empty median to `0` is observably
equivalent. -/
def median (l : List ℚ) : ℚ :=
  let s := sortLe l
  let n := s.length
  if n = 0 then 0
  else if n % 2 = 1 then s.getD (n / 2) 0
  else (s.getD (n / 2 - 1) 0 + s.getD (n / 2) 0) / 2

/-- Python slice `l[start::step]` for a non-negative `start` (the only call
site uses `start = max(N // 2, 1) ≥ 1`): `none` models the `ValueError` raised
for a zero step; a negative step walks downward from `min start (len - 1)`. -/
def pySlice (l : List ℚ) (start : ℕ) (step : ℤ) : Option (List ℚ) :=
  if step = 0 then none
  else if 0 < step then
    some (((List.range l.length).filter fun i =>
      start ≤ i ∧ (i - start) % step.toNat = 0).filterMap fun i => l.get? i)
  else
    some ((((List.range (min start (l.length - 1) + 1)).reverse).filter fun i =>
      (min start (l.length - 1) - i) % step.natAbs = 0).filterMap fun i => l.get? i)

/-! ## spline_model.py -/

/-- The keyword arguments saved in `_kwargs_save`: the boundary-extrapolation
policy `ext` (re-defaulted to `"const"`) and the spline degree `k` (forced to
`3`).  Other keyword arguments are forwarded verbatim to the external kernel
and carry no behaviour in the core, so they are not represented. -/
structure FitConfig where
  ext : String
  k : ℕ
deriving DecidableEq

/-- `kwargs = dict(ext="const"); kwargs.update(spline_args); kwargs["k"] = 3`
(spline_model.py lines 68-70): the caller's `spline_args` may override `ext`,
and `k` is forced to `3` regardless. -/
def mkKwargs : Option FitConfig → FitConfig
  | none => ⟨"const", 3⟩
  | some c => ⟨c.ext, 3⟩

/-- The abstract fit-kernel collaborator (spec §6): given the saved fit
configuration, the series `t`, `y`, the knots, the weights and a list of query
points, return the predicted values at the query points. -/
abbrev Kernel := FitConfig → List ℚ → List ℚ → List ℚ → List ℚ → List ℚ → List ℚ

/-- The state of a `SplineModel` instance: the series `t`, `y`, the knot
positions, the float weight mask `w`, the cached in-sample predictions
`self_pred`, the cached residual statistic `rmad` and its dirtiness flag
`_stats_dirty`, and the saved keyword arguments `_kwargs_save`. -/
structure SplineModel where
  t : List ℚ
  y : List ℚ
  knots : List ℚ
  w : List ℚ
  selfPred : List ℚ
  rmad : ℚ
  statsDirty : Bool
  kwargsSave : FitConfig
deriving DecidableEq

/-- numpy truthiness of a float weight vector (`np.asarray(w, dtype=bool)`). -/
def boolMask (w : List ℚ) : List Bool :=
  w.map fun x => decide (x ≠ 0)

/-- `np.asarray(w, dtype=float)` applied to a boolean vector. -/
def boolToQ (b : Bool) : ℚ :=
  if b then 1 else 0

/-- `replace_mask` (spline_model.py lines 86-97): check the shape assertion,
store the new weights, refit the spline (here: recompute the cached in-sample
predictions `self_pred = self(self.t)` through the kernel) and mark the
residual statistic dirty.  `none` models the failing shape assertion. -/
def replace_mask (K : Kernel) (m : SplineModel) (w : List ℚ) : Option SplineModel :=
  if w.length = m.t.length then
    some { m with
      w := w
      selfPred := K m.kwargsSave m.t m.y m.knots w m.t
      statsDirty := true }
  else none

/-- `SplineModel.__init__` (spline_model.py lines 63-84): check the length
assertion, build the saved kwargs, compute `N = len(y) // nknots` (`none`
models the `ZeroDivisionError` when `nknots = 0` — computed before the
override is examined), derive the knots as the slice `t[max(N // 2, 1)::N]`
unless `knots_override` is given (then used verbatim), default the weights to
all ones, and perform the initial `replace_mask`. -/
def splineModelNew (K : Kernel) (t y : List ℚ) (nknots : ℤ)
    (knotsOverride : Option (List ℚ)) (wOpt : Option (List ℚ))
    (splineArgs : Option FitConfig) : Option SplineModel :=
  if t.length = y.length then
    let cfg := mkKwargs splineArgs
    if nknots = 0 then none
    else
      let N : ℤ := Int.fdiv (y.length : ℤ) nknots
      let knotsO : Option (List ℚ) :=
        match knotsOverride with
        | none => pySlice t (max (Int.fdiv N 2) 1).toNat N
        | some ks => some ks
      knotsO.bind fun knots =>
        let winit : List ℚ := wOpt.getD (List.replicate t.length (1 : ℚ))
        replace_mask K
          { t := t, y := y, knots := knots, w := winit, selfPred := [],
            rmad := 0, statsDirty := true, kwargsSave := cfg } winit
  else none

/-- The residuals `abs(self.y[bm] - self.self_pred[bm])` at the current
inliers `bm = np.asarray(self.w, dtype=bool)` (spline_model.py lines 117-119). -/
def maskedAbsResiduals (m : SplineModel) : List ℚ :=
  ((m.y.zip m.selfPred).zip m.w).filterMap fun p =>
    if p.2 ≠ 0 then some |p.1.1 - p.1.2| else none

/-- The lazy recomputation of the cached statistics at the start of
`inlier_predicate` (spline_model.py lines 115-120): when `_stats_dirty`,
recompute `rmad` as the median absolute residual at the current inliers and
clear the flag; otherwise leave the instance untouched. -/
def classifyUpd (m : SplineModel) : SplineModel :=
  if m.statsDirty then
    { m with rmad := median (maskedAbsResiduals m), statsDirty := false }
  else m

/-- `inlier_predicate` (spline_model.py lines 99-123): lazily refresh the
cached statistic, evaluate the current spline at the query points, and return
elementwise `lb ≤ (y - pred) / rmad ≤ ub`.  The first component is the updated
instance (the method mutates the cache in place).

Float semantics of the division: when `rmad = 0.0`, every deviation is NaN
(`0.0 / 0.0`) or `±Inf` (`x / 0.0`) — numpy emits a warning, not an exception
— and each such value fails at least one of the two finite-bound comparisons,
so every point is classified outlier.  Rational division by zero would give
`0` instead, hence the explicit `rmad ≠ 0` conjunct that reproduces the
all-outlier classification at a zero (or NaN, see `median`) statistic. -/
def inlier_predicate (K : Kernel) (m : SplineModel) (tq yq : List ℚ)
    (ub lb : ℚ) : SplineModel × List Bool :=
  let m1 := classifyUpd m
  let preds := K m1.kwargsSave m1.t m1.y m1.knots m1.w tq
  (m1, (yq.zip preds).map fun p =>
    decide (m1.rmad ≠ 0 ∧ lb ≤ (p.1 - p.2) / m1.rmad ∧
      (p.1 - p.2) / m1.rmad ≤ ub))

/-- The result record of `refine` (spline_model.py lines 152-153). -/
structure FitResult where
  status : ℕ
  message : String
  niter : ℕ
  dfinal : ℕ
deriving DecidableEq

/-- The `while niter <= maxiter` loop of `refine` (spline_model.py lines
154-165), with `fuel = maxiter - niter + 1` remaining loop entries.  Each
entry classifies (`inlier_predicate(self.t, self.y)` with the default bounds
`ub = 4`, `lb = -10`), compares the candidate mask to the committed one, and
either stops with `Converged` (candidate discarded) or commits the candidate
via `replace_mask` and continues.  When the fuel runs out the `else` branch of
the loop reports `Maximum iteration limit exceeded` with the last distance
`lastD`.  The final `ℕ` counts the classification evaluations performed. -/
def refineGo (K : Kernel) (targetD : ℤ) :
    ℕ → ℕ → ℕ → SplineModel → Option (FitResult × SplineModel × ℕ)
  | 0, niter, lastD, m =>
      some (⟨1, "Maximum iteration limit exceeded", niter, lastD⟩, m, 0)
  | fuel + 1, niter, _, m =>
      let r := inlier_predicate K m m.t m.y 4 (-10)
      let dxor := dist r.2 (boolMask r.1.w)
      if (dxor : ℤ) ≤ targetD then
        some (⟨0, "Converged", niter, dxor⟩, r.1, 1)
      else
        (replace_mask K r.1 (r.2.map boolToQ)).bind fun m2 =>
          (refineGo K targetD fuel (niter + 1) dxor m2).map fun r2 =>
            (r2.1, r2.2.1, r2.2.2 + 1)

/-- `refine` (spline_model.py lines 128-166): check the two assertions
(`target_d >= 0`, `maxiter > 0`; `none` models their failure) and run the
loop.  Returns the `FitResult`, the final instance state, and the number of
classification evaluations performed. -/
def refine (K : Kernel) (m : SplineModel) (targetD maxiter : ℤ) :
    Option (FitResult × SplineModel × ℕ) :=
  if 0 ≤ targetD ∧ 0 < maxiter then
    refineGo K targetD (maxiter.toNat + 1) 0 0 m
  else none

/-- One committed iteration of the refinement loop: classify against the
current fit and commit the candidate via `replace_mask` (the body of the
non-converged branch of `refine`). -/
def commitStep (K : Kernel) (m : SplineModel) : Option SplineModel :=
  let r := inlier_predicate K m m.t m.y 4 (-10)
  replace_mask K r.1 (r.2.map boolToQ)

/-- `k` committed refinement iterations in sequence. -/
def commitIter (K : Kernel) : ℕ → SplineModel → Option SplineModel
  | 0, m => some m
  | k + 1, m => (commitStep K m).bind (commitIter K k)

/-- The Hamming distance computed by one `refine` loop entry at state `m`:
distance between the candidate mask `classify(t, y)` and the currently
committed weight mask. -/
def distAt (K : Kernel) (m : SplineModel) : ℕ :=
  let r := inlier_predicate K m m.t m.y 4 (-10)
  dist r.2 (boolMask r.1.w)

/-- The inner loop of `cure_knots` over the runs `midx` (spline_model.py lines
175-181): decide whether `knot` falls strictly inside the open span
`(t[mi_lo], t[mi_hi - 1])` of some run.  `none` models an `IndexError` (bad
index into `t`) or a malformed run (not a two-element list). -/
def runSkips (t : List ℚ) (knot : ℚ) : List (List ℕ) → Option Bool
  | [] => some false
  | [lo, hi] :: rest =>
      match t.get? lo, t.get? (hi - 1) with
      | some mlocLo, some mlocHi =>
          if mlocLo < knot ∧ knot < mlocHi then some true
          else runSkips t knot rest
      | _, _ => none
  | _ => none

/-- The outer loop of `cure_knots` over the knots (spline_model.py lines
174-183): keep exactly the knots that are not skipped, in order. -/
def cureFilter (t : List ℚ) (midx : List (List ℕ)) : List ℚ → Option (List ℚ)
  | [] => some []
  | knot :: rest =>
      match runSkips t knot midx with
      | none => none
      | some true => cureFilter t midx rest
      | some false => (cureFilter t midx rest).map fun l => knot :: l

/-- `cure_knots` (spline_model.py lines 168-186): drop every knot strictly
inside the time-span of some maximal masked-out run of the current mask, and
build a new instance on the same series, the pruned knots (as override), the
current mask and the saved kwargs. -/
def cure_knots (K : Kernel) (m : SplineModel) : Option SplineModel :=
  (cureFilter m.t (mask_index (boolMask m.w)) m.knots).bind fun ktNew =>
    splineModelNew K m.t m.y 23 (some ktNew) (some m.w) (some m.kwargsSave)

/-! ## aggregate.py -/

/-- The construction of one temporary ensemble member in
`knot_shift_aggregate` (aggregate.py lines 21-24 and 28-31): the base series,
the base knots rigidly shifted, the *default* weights (no `w=` argument is
passed), and the base model's saved kwargs. -/
def memberInitial (K : Kernel) (m : SplineModel) (shift : ℚ) : Option SplineModel :=
  splineModelNew K m.t m.y 23 (some (m.knots.map fun x => x + shift)) none (some m.kwargsSave)

/-- One fully-built ensemble member: construct with shifted knots, then refine
with the forwarded refinement arguments; the member's post-refinement state is
kept (aggregate.py lines 20-33). -/
def memberModel (K : Kernel) (m : SplineModel) (shift : ℚ)
    (targetD maxiter : ℤ) : Option SplineModel :=
  (memberInitial K m shift).bind fun mm =>
    (refine K mm targetD maxiter).map fun r => r.2.1

/-- The shifts `i * scale_left` for `i in range(-d, 0)` (aggregate.py line 20). -/
def leftShiftList (d : ℕ) (scaleLeft : ℚ) : List ℚ :=
  (List.range d).map fun j : ℕ => (((j : ℤ) - (d : ℤ) : ℤ) : ℚ) * scaleLeft

/-- The shifts `i * scale_right` for `i in range(1, d + 1)` (aggregate.py line 27). -/
def rightShiftList (d : ℕ) (scaleRight : ℚ) : List ℚ :=
  (List.range d).map fun j : ℕ => ((j : ℚ) + 1) * scaleRight

/-- The consensus-and-final-model stage of `knot_shift_aggregate`
(aggregate.py lines 34-41): take the elementwise product of the base mask with
every member's post-refinement mask; build a fresh model on the series with
that mask (note: no `knots_override` and no `nknots` argument are passed, so
the knots are re-derived with the default `nknots = 23`); `cure_knots` it,
refine it once more, and return it. -/
def aggregateTail (K : Kernel) (model : SplineModel) (targetD maxiter : ℤ)
    (shiftedModels : List SplineModel) : Option SplineModel :=
  (splineModelNew K model.t model.y 23 none
      (some (shiftedModels.foldl (fun acc mm => acc.zipWith (· * ·) mm.w) model.w))
      (some model.kwargsSave)).bind fun modelNew =>
    (cure_knots K modelNew).bind fun modelAgg =>
      (refine K modelAgg targetD maxiter).map fun r => r.2.1

/-- `knot_shift_aggregate` (aggregate.py lines 5-41): check the assertions on
`duplicates` and `proximity_factor`; compute the shift scales from the first
and last knot and the domain endpoints (`none` models the `IndexError` on an
empty knot or time array); build and refine the `2 * duplicates` shifted
members; then run the consensus-and-final-model stage `aggregateTail`. -/
def knot_shift_aggregate (K : Kernel) (model : SplineModel) (duplicates : ℤ)
    (p : ℚ) (targetD maxiter : ℤ) : Option SplineModel :=
  if 0 < duplicates then
    if 0 < p ∧ p < 1 then
      match model.knots.head?, model.knots.getLast?, model.t.head?, model.t.getLast? with
      | some k0, some kn, some t0, some tn =>
        let q : ℚ := (1 - p) / (duplicates : ℚ)
        let scaleLeft := (k0 - t0) * q
        let scaleRight := (tn - kn) * q
        let shifts := leftShiftList duplicates.toNat scaleLeft ++
          rightShiftList duplicates.toNat scaleRight
        (shifts.mapM fun s => memberModel K model s targetD maxiter).bind
          (aggregateTail K model targetD maxiter)
      | _, _, _, _ => none
    else none
  else none

/-! ## Helper lemmas: the cached-statistic update and the refinement loop -/

lemma classifyUpd_t (m : SplineModel) : (classifyUpd m).t = m.t := by
  unfold classifyUpd; split <;> rfl

lemma classifyUpd_y (m : SplineModel) : (classifyUpd m).y = m.y := by
  unfold classifyUpd; split <;> rfl

lemma classifyUpd_knots (m : SplineModel) : (classifyUpd m).knots = m.knots := by
  unfold classifyUpd; split <;> rfl

lemma classifyUpd_w (m : SplineModel) : (classifyUpd m).w = m.w := by
  unfold classifyUpd; split <;> rfl

lemma classifyUpd_selfPred (m : SplineModel) : (classifyUpd m).selfPred = m.selfPred := by
  unfold classifyUpd; split <;> rfl

lemma classifyUpd_kwargsSave (m : SplineModel) : (classifyUpd m).kwargsSave = m.kwargsSave := by
  unfold classifyUpd; split <;> rfl

lemma classifyUpd_statsDirty (m : SplineModel) : (classifyUpd m).statsDirty = false := by
  unfold classifyUpd
  by_cases h : m.statsDirty = true
  · simp [h]
  · simp at h; simp [h]

lemma classifyUpd_of_clean {m : SplineModel} (h : m.statsDirty = false) :
    classifyUpd m = m := by
  unfold classifyUpd; rw [h]; simp

lemma classifyUpd_idem (m : SplineModel) : classifyUpd (classifyUpd m) = classifyUpd m :=
  classifyUpd_of_clean (classifyUpd_statsDirty m)

lemma inlier_predicate_fst (K : Kernel) (m : SplineModel) (tq yq : List ℚ) (ub lb : ℚ) :
    (inlier_predicate K m tq yq ub lb).1 = classifyUpd m := rfl

lemma inlier_predicate_classifyUpd (K : Kernel) (m : SplineModel) (tq yq : List ℚ)
    (ub lb : ℚ) :
    inlier_predicate K (classifyUpd m) tq yq ub lb = inlier_predicate K m tq yq ub lb := by
  unfold inlier_predicate
  simp [classifyUpd_idem]

lemma distAt_classifyUpd (K : Kernel) (m : SplineModel) :
    distAt K (classifyUpd m) = distAt K m := by
  unfold distAt
  rw [classifyUpd_t, classifyUpd_y, inlier_predicate_classifyUpd]

lemma commitIter_zero (K : Kernel) (m : SplineModel) : commitIter K 0 m = some m := rfl

lemma commitIter_succ_of (K : Kernel) {m m2 : SplineModel} (k : ℕ)
    (h : commitStep K m = some m2) : commitIter K (k + 1) m = commitIter K k m2 := by
  simp [commitIter, h]

lemma refineGo_succ_conv (K : Kernel) (td : ℤ) (fuel niter lastD : ℕ) (m : SplineModel)
    (hc : ((distAt K m : ℤ) ≤ td)) :
    refineGo K td (fuel + 1) niter lastD m =
      some (⟨0, "Converged", niter, distAt K m⟩, classifyUpd m, 1) := by
  have hd : dist (inlier_predicate K m m.t m.y 4 (-10)).2
      (boolMask (inlier_predicate K m m.t m.y 4 (-10)).1.w) = distAt K m := rfl
  simp only [refineGo, hd]
  rw [if_pos hc]
  rfl

lemma refineGo_succ_commit (K : Kernel) (td : ℤ) (fuel niter lastD : ℕ)
    {m m2 : SplineModel} (hc : ¬ ((distAt K m : ℤ) ≤ td))
    (hcs : commitStep K m = some m2) :
    refineGo K td (fuel + 1) niter lastD m =
      (refineGo K td fuel (niter + 1) (distAt K m) m2).map fun r2 =>
        (r2.1, r2.2.1, r2.2.2 + 1) := by
  have hd : dist (inlier_predicate K m m.t m.y 4 (-10)).2
      (boolMask (inlier_predicate K m m.t m.y 4 (-10)).1.w) = distAt K m := rfl
  have hrm : replace_mask K (inlier_predicate K m m.t m.y 4 (-10)).1
      ((inlier_predicate K m m.t m.y 4 (-10)).2.map boolToQ) = some m2 := hcs
  simp only [refineGo, hd]
  rw [if_neg hc, hrm]
  rfl

lemma refineGo_succ_commit_none (K : Kernel) (td : ℤ) (fuel niter lastD : ℕ)
    {m : SplineModel} (hc : ¬ ((distAt K m : ℤ) ≤ td))
    (hcs : commitStep K m = none) :
    refineGo K td (fuel + 1) niter lastD m = none := by
  have hd : dist (inlier_predicate K m m.t m.y 4 (-10)).2
      (boolMask (inlier_predicate K m m.t m.y 4 (-10)).1.w) = distAt K m := rfl
  have hrm : replace_mask K (inlier_predicate K m m.t m.y 4 (-10)).1
      ((inlier_predicate K m m.t m.y 4 (-10)).2.map boolToQ) = none := hcs
  simp only [refineGo, hd]
  rw [if_neg hc, hrm]
  rfl

lemma refineGo_spec (K : Kernel) (td : ℤ) :
    ∀ fuel niter lastD m res mf cnt,
    refineGo K td fuel niter lastD m = some (res, mf, cnt) →
    (res.status = 0 ∧ res.message = "Converged" ∧
      ∃ k mk, commitIter K k m = some mk ∧ res.niter = niter + k ∧ k < fuel ∧
        cnt = k + 1 ∧ mf = classifyUpd mk ∧ res.dfinal = distAt K mk ∧
        ((res.dfinal : ℤ) ≤ td) ∧
        (∀ j mj, j < k → commitIter K j m = some mj → td < (distAt K mj : ℤ)))
    ∨ (res.status = 1 ∧ res.message = "Maximum iteration limit exceeded" ∧
        res.niter = niter + fuel ∧ cnt = fuel ∧
        (∃ mend, commitIter K fuel m = some mend ∧ mf = mend) ∧
        (∀ j mj, j < fuel → commitIter K j m = some mj → td < (distAt K mj : ℤ)) ∧
        (0 < fuel → ∃ ml, commitIter K (fuel - 1) m = some ml ∧ res.dfinal = distAt K ml) ∧
        (fuel = 0 → res.dfinal = lastD ∧ mf = m)) := by
  intro fuel
  induction fuel with
  | zero =>
    intro niter lastD m res mf cnt h
    simp only [refineGo, Option.some.injEq, Prod.mk.injEq] at h
    obtain ⟨hres, hmf, hcnt⟩ := h
    right
    subst hres hmf hcnt
    refine ⟨rfl, rfl, rfl, rfl, ⟨m, rfl, rfl⟩, ?_, ?_, ?_⟩
    · intro j mj hj; omega
    · intro h0; omega
    · intro _; exact ⟨rfl, rfl⟩
  | succ fuel ih =>
    intro niter lastD m res mf cnt h
    by_cases hc : ((distAt K m : ℤ) ≤ td)
    · rw [refineGo_succ_conv K td fuel niter lastD m hc] at h
      simp only [Option.some.injEq, Prod.mk.injEq] at h
      obtain ⟨hres, hmf, hcnt⟩ := h
      left
      subst hres hmf hcnt
      refine ⟨rfl, rfl, 0, m, commitIter_zero K m, by simp, Nat.succ_pos fuel,
        rfl, rfl, rfl, hc, ?_⟩
      intro j mj hj; omega
    · rcases hcs : commitStep K m with _ | m2
      · rw [refineGo_succ_commit_none K td fuel niter lastD hc hcs] at h
        cases h
      · rw [refineGo_succ_commit K td fuel niter lastD hc hcs] at h
        rcases hrec : refineGo K td fuel (niter + 1) (distAt K m) m2 with _ | ⟨res', mf', cnt'⟩
        · rw [hrec] at h; cases h
        · rw [hrec] at h
          simp only [Option.map_some', Option.some.injEq, Prod.mk.injEq] at h
          obtain ⟨hres, hmf, hcnt⟩ := h
          have hlt : td < (distAt K m : ℤ) := by omega
          rcases ih (niter + 1) (distAt K m) m2 res' mf' cnt' hrec with
            ⟨hs, hmsg, k', mk, hci, hni, hkf, hcnt', hmf', hdf, hle, hall⟩ |
            ⟨hs, hmsg, hni, hcnt', ⟨mend, hciend, hmfend⟩, hall, hpos, hzero⟩
          · left
            subst hres hmf hcnt
            refine ⟨hs, hmsg, k' + 1, mk, ?_, by omega, by omega, by omega, hmf', hdf, hle, ?_⟩
            · rw [commitIter_succ_of K (k := k') hcs]; exact hci
            · intro j mj hj hcj
              match j with
              | 0 =>
                rw [commitIter_zero] at hcj
                cases hcj
                exact hlt
              | j' + 1 =>
                rw [commitIter_succ_of K (k := j') hcs] at hcj
                exact hall j' mj (by omega) hcj
          · right
            subst hres hmf hcnt
            refine ⟨hs, hmsg, by omega, by omega, ⟨mend, ?_, hmfend⟩, ?_, ?_, by omega⟩
            · rw [commitIter_succ_of K (k := fuel) hcs]; exact hciend
            · intro j mj hj hcj
              match j with
              | 0 =>
                rw [commitIter_zero] at hcj
                cases hcj
                exact hlt
              | j' + 1 =>
                rw [commitIter_succ_of K (k := j') hcs] at hcj
                exact hall j' mj (by omega) hcj
            · intro _
              cases fuel with
              | zero =>
                refine ⟨m, commitIter_zero K m, ?_⟩
                exact (hzero rfl).1
              | succ f =>
                obtain ⟨ml, hml, hdl⟩ := hpos (Nat.succ_pos f)
                refine ⟨ml, ?_, hdl⟩
                have he : f + 1 + 1 - 1 = f + 1 := by omega
                rw [he, commitIter_succ_of K (k := f) hcs]
                simpa using hml

/-! ## The refinement loop: claims C3, C4, C9 -/

lemma refine_eq_refineGo {K : Kernel} {m : SplineModel} {td mi : ℤ}
    (h1 : 0 ≤ td) (h2 : 0 < mi) :
    refine K m td mi = refineGo K td (mi.toNat + 1) 0 0 m := by
  simp [refine, h1, h2]

lemma refine_some_bounds {K : Kernel} {m : SplineModel} {td mi : ℤ}
    {r : FitResult × SplineModel × ℕ} (h : refine K m td mi = some r) :
    0 ≤ td ∧ 0 < mi := by
  by_cases hb : 0 ≤ td ∧ 0 < mi
  · exact hb
  · rw [refine, if_neg hb] at h; cases h

/-- Concrete fixture: a kernel predicting `0` everywhere. -/
def exK : Kernel := fun _ _ _ _ _ query => query.map fun _ => 0

/-- Concrete fixture: a one-point model in the clean (non-dirty) state, with
a nonzero cached residual statistic. -/
def exM1 : SplineModel :=
  { t := [0], y := [0], knots := [], w := [1], selfPred := [0],
    rmad := 1, statsDirty := false, kwargsSave := ⟨"const", 3⟩ }

/-- Concrete fixture: the result record of the converging run on `exM1`. -/
def exRes : FitResult := ⟨0, "Converged", 0, 0⟩

lemma exM1_refine : refine exK exM1 1 1 = some (exRes, exM1, 1) := by
  norm_num [exK, exM1, exRes, refine, refineGo, inlier_predicate, classifyUpd, dist, boolMask]

/-- C3: when `refine` exits with `Converged`, the candidate mask that passed
the distance test is discarded, not committed: the returned state is the state
reached by the `res.niter` committed iterations (`replace_mask` commits) of
the loop — its weight mask, fitted spline (in-sample predictions), knots,
series and fit configuration are those of that previously committed state,
the only difference being the lazily refreshed residual-statistic cache
(`classifyUpd`), which is recomputed from that same committed mask. -/
theorem refine_converged_discards_candidate (K : Kernel) (m : SplineModel)
    (td mi : ℤ) (res : FitResult) (mf : SplineModel) (cnt : ℕ)
    (h : refine K m td mi = some (res, mf, cnt)) (hs : res.status = 0) :
    ∃ mk, commitIter K res.niter m = some mk ∧ mf = classifyUpd mk ∧
      mf.w = mk.w ∧ mf.selfPred = mk.selfPred ∧ mf.knots = mk.knots ∧
      mf.t = mk.t ∧ mf.y = mk.y ∧ mf.kwargsSave = mk.kwargsSave := by
  obtain ⟨h1, h2⟩ := refine_some_bounds h
  rw [refine_eq_refineGo h1 h2] at h
  rcases refineGo_spec K td (mi.toNat + 1) 0 0 m res mf cnt h with
    ⟨_, _, k, mk, hci, hni, _, _, hmf, _, _, _⟩ | ⟨hs1, _⟩
  · refine ⟨mk, ?_, hmf, ?_, ?_, ?_, ?_, ?_, ?_⟩
    · rw [hni]; simpa using hci
    · rw [hmf]; exact classifyUpd_w mk
    · rw [hmf]; exact classifyUpd_selfPred mk
    · rw [hmf]; exact classifyUpd_knots mk
    · rw [hmf]; exact classifyUpd_t mk
    · rw [hmf]; exact classifyUpd_y mk
    · rw [hmf]; exact classifyUpd_kwargsSave mk
  · rw [hs] at hs1; cases hs1

/-- Witness for C3 at a concrete converging run. -/
theorem refine_converged_discards_candidate_witness :
    ∃ mk, commitIter exK exRes.niter exM1 = some mk ∧
      exM1 = classifyUpd mk ∧ exM1.w = mk.w ∧ exM1.selfPred = mk.selfPred ∧
      exM1.knots = mk.knots ∧ exM1.t = mk.t ∧ exM1.y = mk.y ∧
      exM1.kwargsSave = mk.kwargsSave :=
  refine_converged_discards_candidate exK exM1 1 1 exRes exM1 1
    exM1_refine rfl

/-- C4: `refine` stops with `Converged`, recording `(iterations = k,
finalDistance = d)`, exactly when the Hamming distance `d` between the
candidate mask produced by classification and the currently committed mask
first satisfies `d ≤ targetDistance` (at every earlier iteration the distance
exceeded it); and a run that never satisfies the test performs exactly
`maxIterations + 1` classification (`inlier_predicate`) evaluations before the
`MaxIterationsExceeded` exit (the returned evaluation count `cnt`). -/
theorem refine_convergence_characterization (K : Kernel) (m : SplineModel)
    (td mi : ℤ) (res : FitResult) (mf : SplineModel) (cnt : ℕ)
    (h : refine K m td mi = some (res, mf, cnt)) :
    (res.status = 0 ∨ res.status = 1) ∧
    (res.status = 0 →
      res.message = "Converged" ∧ res.niter ≤ mi.toNat ∧ cnt = res.niter + 1 ∧
      ∃ mk, commitIter K res.niter m = some mk ∧ res.dfinal = distAt K mk ∧
        ((res.dfinal : ℤ) ≤ td) ∧
        (∀ j mj, j < res.niter → commitIter K j m = some mj →
          td < (distAt K mj : ℤ))) ∧
    (res.status = 1 →
      res.message = "Maximum iteration limit exceeded" ∧
      cnt = mi.toNat + 1 ∧ res.niter = mi.toNat + 1 ∧
      (∀ j mj, j ≤ mi.toNat → commitIter K j m = some mj →
        td < (distAt K mj : ℤ))) := by
  obtain ⟨h1, h2⟩ := refine_some_bounds h
  rw [refine_eq_refineGo h1 h2] at h
  rcases refineGo_spec K td (mi.toNat + 1) 0 0 m res mf cnt h with
    ⟨hs, hmsg, k, mk, hci, hni, hkf, hcnt, _, hdf, hle, hall⟩ |
    ⟨hs, hmsg, hni, hcnt, _, hall, _, _⟩
  · refine ⟨Or.inl hs, fun _ => ⟨hmsg, by omega, by omega, mk, ?_, hdf, hle, ?_⟩,
      fun hs1 => ?_⟩
    · rw [hni]; simpa using hci
    · intro j mj hj hcj
      exact hall j mj (by omega) hcj
    · rw [hs] at hs1; cases hs1
  · refine ⟨Or.inr hs, fun hs0 => ?_, fun _ => ⟨hmsg, by omega, by omega, ?_⟩⟩
    · rw [hs] at hs0; cases hs0
    · intro j mj hj hcj
      exact hall j mj (by omega) hcj

/-- Witness for C4 at a concrete converging run. -/
theorem refine_convergence_characterization_witness :
    (exRes.status = 0 ∨ exRes.status = 1) ∧
    (exRes.status = 0 →
      exRes.message = "Converged" ∧ exRes.niter ≤ (1 : ℤ).toNat ∧
      1 = exRes.niter + 1 ∧
      ∃ mk, commitIter exK exRes.niter exM1 = some mk ∧
        exRes.dfinal = distAt exK mk ∧ ((exRes.dfinal : ℤ) ≤ 1) ∧
        (∀ j mj, j < exRes.niter → commitIter exK j exM1 = some mj →
          1 < (distAt exK mj : ℤ))) ∧
    (exRes.status = 1 →
      exRes.message = "Maximum iteration limit exceeded" ∧
      1 = (1 : ℤ).toNat + 1 ∧ exRes.niter = (1 : ℤ).toNat + 1 ∧
      (∀ j mj, j ≤ (1 : ℤ).toNat → commitIter exK j exM1 = some mj →
        1 < (distAt exK mj : ℤ))) :=
  refine_convergence_characterization exK exM1 1 1 exRes exM1 1 exM1_refine

/-- C9: re-running `refine` on a model whose previous `refine` call returned
`Converged`, with the same arguments and no intervening state change, returns
`Converged` with zero iterations, the same final distance, one classification
evaluation, and leaves the state unchanged. -/
theorem refine_rerefine_idempotent (K : Kernel) (m : SplineModel)
    (td mi : ℤ) (res : FitResult) (mf : SplineModel) (cnt : ℕ)
    (h : refine K m td mi = some (res, mf, cnt)) (hs : res.status = 0) :
    refine K mf td mi = some (⟨0, "Converged", 0, res.dfinal⟩, mf, 1) := by
  obtain ⟨h1, h2⟩ := refine_some_bounds h
  rw [refine_eq_refineGo h1 h2] at h
  rcases refineGo_spec K td (mi.toNat + 1) 0 0 m res mf cnt h with
    ⟨_, _, k, mk, hci, hni, _, _, hmf, hdf, hle, _⟩ | ⟨hs1, _⟩
  · have hdmf : distAt K mf = res.dfinal := by
      rw [hmf, distAt_classifyUpd, hdf]
    have hcu : classifyUpd mf = mf := by
      rw [hmf, classifyUpd_idem]
    rw [refine_eq_refineGo h1 h2, refineGo_succ_conv K td mi.toNat 0 0 mf
      (by rw [hdmf]; exact hle)]
    rw [hdmf, hcu]
  · rw [hs] at hs1; cases hs1

/-- Witness for C9 at a concrete converging run. -/
theorem refine_rerefine_idempotent_witness :
    refine exK exM1 1 1 = some (⟨0, "Converged", 0, exRes.dfinal⟩, exM1, 1) :=
  refine_rerefine_idempotent exK exM1 1 1 exRes exM1 1 exM1_refine rfl

/-! ## The run encoder: claim C5 -/

/-- Reference reformulation of the scanner: the maximal false-run intervals of
`l` with indices offset by `i`; the state `some s` means a run that began at
absolute index `s` is currently open (the sentinel closure of `mask_index` is
the `[] , some s` equation). -/
def runsFrom : List Bool → ℕ → Option ℕ → List (ℕ × ℕ)
  | [], _, none => []
  | [], i, some s => [(s, i)]
  | true :: rest, i, none => runsFrom rest (i + 1) none
  | true :: rest, i, some s => (s, i) :: runsFrom rest (i + 1) none
  | false :: rest, i, none => runsFrom rest (i + 1) (some i)
  | false :: rest, i, some s => runsFrom rest (i + 1) (some s)

/-- The scanner state corresponding to an open-run state. -/
def stOf : Option ℕ → ScanState
  | none => ScanState.want0
  | some _ => ScanState.want1

/-- The current chunk corresponding to an open-run state. -/
def chunkOf : Option ℕ → List ℕ
  | none => []
  | some s => [s]

lemma mask_index_core_runsFrom :
    ∀ (l : List Bool) (i : ℕ) (st : Option ℕ) (res : List (List ℕ)),
    mask_index_core (l ++ [true]) i (stOf st) (chunkOf st) res =
      res ++ (runsFrom l i st).map fun r => [r.1, r.2] := by
  intro l
  induction l with
  | nil =>
    intro i st res
    cases st <;> simp [mask_index_core, runsFrom, stOf, chunkOf]
  | cons b rest ih =>
    intro i st res
    cases st with
    | none =>
      cases b with
      | true =>
        have h1 := ih (i + 1) none res
        simpa [mask_index_core, runsFrom, stOf, chunkOf] using h1
      | false =>
        have h1 := ih (i + 1) (some i) res
        simpa [mask_index_core, runsFrom, stOf, chunkOf] using h1
    | some s =>
      cases b with
      | true =>
        have h1 := ih (i + 1) none (res ++ [[s, i]])
        simpa [mask_index_core, runsFrom, stOf, chunkOf] using h1
      | false =>
        have h1 := ih (i + 1) (some s) res
        simpa [mask_index_core, runsFrom, stOf, chunkOf] using h1

lemma mask_index_eq_runsFrom (w : List Bool) :
    mask_index w = (runsFrom w 0 none).map fun r => [r.1, r.2] := by
  have h := mask_index_core_runsFrom w 0 none []
  simpa [mask_index, stOf, chunkOf] using h

/-- Well-formed run list over `[lo, n]`: every interval `[s, e)` is nonempty,
bounded by `n`, starts are increasing, and consecutive intervals are separated
by at least one uncovered position (`e + 1 ≤` next start). -/
def RunsWF : ℕ → ℕ → List (ℕ × ℕ) → Prop
  | _, _, [] => True
  | lo, n, r :: rest => lo ≤ r.1 ∧ r.1 < r.2 ∧ r.2 ≤ n ∧ RunsWF (r.2 + 1) n rest

lemma RunsWF_mono : ∀ (rs : List (ℕ × ℕ)) (lo n lo' n' : ℕ),
    RunsWF lo n rs → lo' ≤ lo → n ≤ n' → RunsWF lo' n' rs := by
  intro rs
  induction rs with
  | nil => intro lo n lo' n' _ _ _; trivial
  | cons r rest ih =>
    intro lo n lo' n' h hl hn
    obtain ⟨h1, h2, h3, h4⟩ := h
    exact ⟨le_trans hl h1, h2, le_trans h3 hn, ih (r.2 + 1) n (r.2 + 1) n' h4 le_rfl hn⟩

lemma runsFrom_wf : ∀ (l : List Bool) (i : ℕ),
    RunsWF i (i + l.length) (runsFrom l i none) ∧
    ∀ s, ∃ e tail, runsFrom l i (some s) = (s, e) :: tail ∧ i ≤ e ∧
      e ≤ i + l.length ∧ RunsWF (e + 1) (i + l.length) tail := by
  intro l
  induction l with
  | nil =>
    intro i
    refine ⟨trivial, fun s => ⟨i, [], rfl, le_rfl, by simp, trivial⟩⟩
  | cons b rest ih =>
    intro i
    have hlen : i + 1 + rest.length = i + (rest.length + 1) := by omega
    constructor
    · cases b with
      | true =>
        have h1 := (ih (i + 1)).1
        rw [hlen] at h1
        exact RunsWF_mono _ (i + 1) _ i _ (by simpa [runsFrom] using h1) (by omega) le_rfl
      | false =>
        obtain ⟨e, tail, heq, he1, he2, hwf⟩ := (ih (i + 1)).2 i
        show RunsWF i (i + (rest.length + 1)) (runsFrom (false :: rest) i none)
        rw [show runsFrom (false :: rest) i none = runsFrom rest (i + 1) (some i) from rfl,
          heq]
        exact ⟨le_rfl, by omega, by omega, RunsWF_mono _ (e + 1) _ (e + 1) _ hwf le_rfl (by omega)⟩
    · intro s
      cases b with
      | true =>
        have h1 := (ih (i + 1)).1
        simp only [List.length_cons]
        refine ⟨i, runsFrom rest (i + 1) none, rfl, le_rfl, by omega, ?_⟩
        rw [hlen] at h1
        exact h1
      | false =>
        obtain ⟨e, tail, heq, he1, he2, hwf⟩ := (ih (i + 1)).2 s
        simp only [List.length_cons]
        refine ⟨e, tail, ?_, by omega, by omega, ?_⟩
        · rw [show runsFrom (false :: rest) i (some s) = runsFrom rest (i + 1) (some s)
            from rfl, heq]
        · exact RunsWF_mono _ (e + 1) _ (e + 1) _ hwf le_rfl (by omega)

/-- Is index `j` covered by some half-open interval in `rs`? -/
def coveredB (rs : List (ℕ × ℕ)) (j : ℕ) : Bool :=
  rs.any fun r => decide (r.1 ≤ j) && decide (j < r.2)

/-- Reconstruct positions `i, …, i + n - 1` from a run list: `false` exactly
on the covered positions. -/
def runsDecode (n i : ℕ) (rs : List (ℕ × ℕ)) : List Bool :=
  (List.range' i n).map fun j => !(coveredB rs j)

lemma coveredB_false_of_lt : ∀ (rs : List (ℕ × ℕ)) (lo n j : ℕ),
    RunsWF lo n rs → j < lo → coveredB rs j = false := by
  intro rs
  induction rs with
  | nil => intro lo n j _ _; rfl
  | cons r rest ih =>
    intro lo n j h hj
    obtain ⟨h1, h2, h3, h4⟩ := h
    have hhead : (decide (r.1 ≤ j) && decide (j < r.2)) = false := by
      have : ¬ (r.1 ≤ j) := by omega
      simp [this]
    have htail : coveredB rest j = false := ih (r.2 + 1) n j h4 (by omega)
    simp only [coveredB, List.any_cons] at *
    rw [hhead, htail]
    rfl

lemma runsDecode_succ (n i : ℕ) (rs : List (ℕ × ℕ)) :
    runsDecode (n + 1) i rs = (!(coveredB rs i)) :: runsDecode n (i + 1) rs := by
  simp [runsDecode, List.range'_succ]

lemma runsDecode_zero (i : ℕ) (rs : List (ℕ × ℕ)) : runsDecode 0 i rs = [] := rfl

lemma runsDecode_cons_low (n i : ℕ) (r : ℕ × ℕ) (rs : List (ℕ × ℕ))
    (h : r.2 ≤ i) : runsDecode n i (r :: rs) = runsDecode n i rs := by
  unfold runsDecode
  apply List.map_congr_left
  intro j hj
  have hij : i ≤ j := (List.mem_range'_1.mp hj).1
  have : ¬ (j < r.2) := by omega
  simp [coveredB, this]

lemma runsFrom_decode : ∀ (l : List Bool) (i : ℕ),
    runsDecode l.length i (runsFrom l i none) = l ∧
    ∀ s, s < i → runsDecode l.length i (runsFrom l i (some s)) = l := by
  intro l
  induction l with
  | nil =>
    intro i
    exact ⟨rfl, fun s _ => rfl⟩
  | cons b rest ih =>
    intro i
    constructor
    · cases b with
      | true =>
        show runsDecode (rest.length + 1) i (runsFrom rest (i + 1) none) = true :: rest
        rw [runsDecode_succ]
        have hwf := (runsFrom_wf rest (i + 1)).1
        have hcov : coveredB (runsFrom rest (i + 1) none) i = false :=
          coveredB_false_of_lt _ (i + 1) _ i hwf (by omega)
        rw [hcov, (ih (i + 1)).1]
        rfl
      | false =>
        show runsDecode (rest.length + 1) i (runsFrom rest (i + 1) (some i)) = false :: rest
        obtain ⟨e, tail, heq, he1, he2, hwf⟩ := (runsFrom_wf rest (i + 1)).2 i
        rw [runsDecode_succ]
        have hcov : coveredB (runsFrom rest (i + 1) (some i)) i = true := by
          rw [heq]
          have h1 : (decide (i ≤ i) && decide (i < e)) = true := by
            have : i < e := by omega
            simp [this]
          simp only [coveredB, List.any_cons]
          rw [h1]
          rfl
        rw [hcov, (ih (i + 1)).2 i (by omega)]
        rfl
    · intro s hs
      cases b with
      | true =>
        show runsDecode (rest.length + 1) i ((s, i) :: runsFrom rest (i + 1) none) =
          true :: rest
        rw [runsDecode_succ]
        have hwf := (runsFrom_wf rest (i + 1)).1
        have hcov : coveredB ((s, i) :: runsFrom rest (i + 1) none) i = false := by
          have h1 : (decide (s ≤ i) && decide (i < i)) = false := by simp
          have h2 : coveredB (runsFrom rest (i + 1) none) i = false :=
            coveredB_false_of_lt _ (i + 1) _ i hwf (by omega)
          simp only [coveredB, List.any_cons] at *
          rw [h1, h2]
          rfl
        rw [hcov]
        rw [runsDecode_cons_low _ _ (s, i) _ (by simp)]
        rw [(ih (i + 1)).1]
        rfl
      | false =>
        show runsDecode (rest.length + 1) i (runsFrom rest (i + 1) (some s)) = false :: rest
        obtain ⟨e, tail, heq, he1, he2, hwf⟩ := (runsFrom_wf rest (i + 1)).2 s
        rw [runsDecode_succ]
        have hcov : coveredB (runsFrom rest (i + 1) (some s)) i = true := by
          rw [heq]
          have h1 : (decide (s ≤ i) && decide (i < e)) = true := by
            have hx : s ≤ i := by omega
            have hy : i < e := by omega
            simp [hx, hy]
          simp only [coveredB, List.any_cons]
          rw [h1]
          rfl
        rw [hcov, (ih (i + 1)).2 s (by omega)]
        rfl

lemma runsFrom_replicate_true : ∀ (k i : ℕ),
    runsFrom (List.replicate k true) i none = [] := by
  intro k
  induction k with
  | zero => intro i; rfl
  | succ k ih => intro i; simpa [List.replicate, runsFrom] using ih (i + 1)

lemma RunsWF_chain : ∀ (rs : List (ℕ × ℕ)) (lo n : ℕ), RunsWF lo n rs →
    List.Chain' (fun r r2 => r.2 < r2.1) rs ∧ ∀ r ∈ rs, lo ≤ r.1 ∧ r.1 < r.2 ∧ r.2 ≤ n := by
  intro rs
  induction rs with
  | nil => intro lo n _; exact ⟨List.chain'_nil, by simp⟩
  | cons r rest ih =>
    intro lo n h
    obtain ⟨h1, h2, h3, h4⟩ := h
    obtain ⟨hch, hmem⟩ := ih (r.2 + 1) n h4
    constructor
    · apply List.chain'_cons'.mpr
      refine ⟨?_, hch⟩
      intro r2 hr2
      have := hmem r2 (List.mem_of_mem_head? hr2)
      omega
    · intro r2 hr2
      rcases List.mem_cons.mp hr2 with h | h
      · subst h; exact ⟨h1, h2, h3⟩
      · have := hmem r2 h
        omega

/-- C5: for every boolean input, `mask_index` returns the ordered,
non-overlapping list of half-open `[start, end)` interval pairs of the maximal
`false` runs: the list is well-formed over `[0, n]` (nonempty intervals in
increasing order, separated by at least one `true`), reconstructing the
`false`-positions from the intervals reproduces the input exactly, empty and
all-`true` inputs give an empty output, and a trailing run is closed at the
sentinel position `n` (the interval ends are bounded by `n`, as in the
`[F,F,F] → [[0,3]]` example). -/
theorem mask_index_runs_spec (w : List Bool) :
    ∃ rs : List (ℕ × ℕ),
      mask_index w = rs.map (fun r => [r.1, r.2]) ∧
      RunsWF 0 w.length rs ∧
      List.Chain' (fun r r2 => r.2 < r2.1) rs ∧
      (∀ r ∈ rs, r.1 < r.2 ∧ r.2 ≤ w.length) ∧
      runsDecode w.length 0 rs = w ∧
      mask_index ([] : List Bool) = [] ∧
      (∀ k, mask_index (List.replicate k true) = []) ∧
      mask_index [true, true, false, false, false, true, false, true] = [[2, 5], [6, 7]] ∧
      mask_index [false, false, false] = [[0, 3]] ∧
      mask_index [true, true] = [] := by
  refine ⟨runsFrom w 0 none, mask_index_eq_runsFrom w, ?_, ?_, ?_, ?_, by decide, ?_, by decide,
    by decide, by decide⟩
  · simpa using (runsFrom_wf w 0).1
  · exact (RunsWF_chain _ 0 w.length (by simpa using (runsFrom_wf w 0).1)).1
  · intro r hr
    have := (RunsWF_chain _ 0 w.length (by simpa using (runsFrom_wf w 0).1)).2 r hr
    omega
  · exact (runsFrom_decode w 0).1
  · intro k
    rw [mask_index_eq_runsFrom, runsFrom_replicate_true]
    rfl

/-! ## Knot curing: claim C6 -/

/-- Pure form of the skip test of `cure_knots`: `knot` falls strictly inside
the open span `(t[lo], t[hi - 1])` of some run `[lo, hi)` of `midx`. -/
def insideSomeRun (t : List ℚ) (midx : List (List ℕ)) (knot : ℚ) : Bool :=
  midx.any fun r =>
    match r with
    | [lo, hi] => decide (t.getD lo 0 < knot) && decide (knot < t.getD (hi - 1) 0)
    | _ => false

lemma get?_eq_some_getD {l : List ℚ} {i : ℕ} (h : i < l.length) :
    l.get? i = some (l.getD i 0) := by
  rw [List.getD_eq_getD_get?]
  rcases hx : l.get? i with _ | x
  · rw [List.get?_eq_none] at hx; omega
  · rfl

lemma runSkips_eq (t : List ℚ) (knot : ℚ) :
    ∀ midx : List (List ℕ),
    (∀ r ∈ midx, ∃ s e, r = [s, e] ∧ 0 < e ∧ e ≤ t.length ∧ s < t.length) →
    runSkips t knot midx = some (insideSomeRun t midx knot) := by
  intro midx
  induction midx with
  | nil => intro _; rfl
  | cons r rest ih =>
    intro hb
    obtain ⟨s, e, rfl, he0, heL, hsL⟩ := hb _ (List.mem_cons_self r rest)
    have hs : t.get? s = some (t.getD s 0) := get?_eq_some_getD hsL
    have he : t.get? (e - 1) = some (t.getD (e - 1) 0) := get?_eq_some_getD (by omega)
    have htail := ih fun r hr => hb r (List.mem_cons_of_mem _ hr)
    rw [show runSkips t knot ([s, e] :: rest) =
      (match t.get? s, t.get? (e - 1) with
       | some mlocLo, some mlocHi =>
           if mlocLo < knot ∧ knot < mlocHi then some true
           else runSkips t knot rest
       | _, _ => none) from rfl, hs, he]
    show (if t.getD s 0 < knot ∧ knot < t.getD (e - 1) 0 then some true
          else runSkips t knot rest) = some (insideSomeRun t ([s, e] :: rest) knot)
    by_cases hc : t.getD s 0 < knot ∧ knot < t.getD (e - 1) 0
    · rw [if_pos hc]
      have hhead : insideSomeRun t ([s, e] :: rest) knot = true := by
        simp only [insideSomeRun, List.any_cons]
        have h1 : (decide (t.getD s 0 < knot) && decide (knot < t.getD (e - 1) 0)) = true := by
          rw [decide_eq_true hc.1, decide_eq_true hc.2]
          rfl
        exact Bool.or_eq_true_iff.mpr (Or.inl h1)
      rw [hhead]
    · rw [if_neg hc, htail]
      have hhead : insideSomeRun t ([s, e] :: rest) knot = insideSomeRun t rest knot := by
        simp only [insideSomeRun, List.any_cons]
        have h1 : (decide (t.getD s 0 < knot) && decide (knot < t.getD (e - 1) 0)) = false := by
          rcases not_and_or.mp hc with h | h
          · rw [decide_eq_false h, Bool.false_and]
          · rw [decide_eq_false h, Bool.and_false]
        rw [h1, Bool.false_or]
      rw [hhead]

lemma cureFilter_eq (t : List ℚ) (midx : List (List ℕ))
    (hb : ∀ r ∈ midx, ∃ s e, r = [s, e] ∧ 0 < e ∧ e ≤ t.length ∧ s < t.length) :
    ∀ knots : List ℚ,
    cureFilter t midx knots =
      some (knots.filter fun knot => !(insideSomeRun t midx knot)) := by
  intro knots
  induction knots with
  | nil => rfl
  | cons knot rest ih =>
    rw [show cureFilter t midx (knot :: rest) =
      (match runSkips t knot midx with
       | none => none
       | some true => cureFilter t midx rest
       | some false => (cureFilter t midx rest).map fun l => knot :: l) from rfl]
    rw [runSkips_eq t knot midx hb]
    by_cases hc : insideSomeRun t midx knot = true
    · rw [hc, ih]
      simp [List.filter_cons, hc]
    · rw [Bool.not_eq_true] at hc
      rw [hc, ih]
      simp [List.filter_cons, hc]

lemma boolMask_length (w : List ℚ) : (boolMask w).length = w.length := by
  simp [boolMask]

lemma splineModelNew_override (K : Kernel) (t y ks : List ℚ) (nknots : ℤ)
    (wOpt : Option (List ℚ)) (sa : Option FitConfig)
    (hlen : t.length = y.length) (hnk : nknots ≠ 0)
    (hwl : (wOpt.getD (List.replicate t.length 1)).length = t.length) :
    splineModelNew K t y nknots (some ks) wOpt sa =
      some { t := t, y := y, knots := ks, w := wOpt.getD (List.replicate t.length 1),
             selfPred := K (mkKwargs sa) t y ks (wOpt.getD (List.replicate t.length 1)) t,
             rmad := 0, statsDirty := true, kwargsSave := mkKwargs sa } := by
  simp only [splineModelNew, if_pos hlen, if_neg hnk, Option.some_bind, replace_mask]
  rw [if_pos hwl]

/-- C6: `cure_knots` returns a new model sharing the series and the current
weight mask, immediately refit, whose knot set keeps exactly the input knots
that do not fall strictly inside the open span `(t[start], t[end - 1])` of any
maximal outlier run of the current mask (a `List.filter`, hence a sublist of
the input knots in original order); the original instance is a value and is
not modified. -/
theorem cure_knots_spec (K : Kernel) (m : SplineModel)
    (hw : m.w.length = m.t.length) (hy : m.y.length = m.t.length) :
    ∃ m', cure_knots K m = some m' ∧
      m'.t = m.t ∧ m'.y = m.y ∧ m'.w = m.w ∧
      m'.knots = m.knots.filter
        (fun knot => !(insideSomeRun m.t (mask_index (boolMask m.w)) knot)) ∧
      m'.knots.Sublist m.knots ∧
      m'.kwargsSave = ⟨m.kwargsSave.ext, 3⟩ ∧
      m'.selfPred = K ⟨m.kwargsSave.ext, 3⟩ m.t m.y m'.knots m.w m.t ∧
      m'.statsDirty = true := by
  have hwf : RunsWF 0 (boolMask m.w).length (runsFrom (boolMask m.w) 0 none) := by
    simpa using (runsFrom_wf (boolMask m.w) 0).1
  have hb : ∀ r ∈ mask_index (boolMask m.w),
      ∃ s e, r = [s, e] ∧ 0 < e ∧ e ≤ m.t.length ∧ s < m.t.length := by
    intro r hr
    rw [mask_index_eq_runsFrom] at hr
    obtain ⟨⟨s, e⟩, hmem, rfl⟩ := List.mem_map.mp hr
    have hbd := (RunsWF_chain _ 0 (boolMask m.w).length hwf).2 _ hmem
    have hlb : (boolMask m.w).length = m.t.length := by rw [boolMask_length, hw]
    exact ⟨s, e, rfl, by omega, by omega, by omega⟩
  have hcf := cureFilter_eq m.t (mask_index (boolMask m.w)) hb m.knots
  refine ⟨{ t := m.t, y := m.y,
            knots := m.knots.filter
              (fun knot => !(insideSomeRun m.t (mask_index (boolMask m.w)) knot)),
            w := m.w,
            selfPred := K ⟨m.kwargsSave.ext, 3⟩ m.t m.y
              (m.knots.filter
                (fun knot => !(insideSomeRun m.t (mask_index (boolMask m.w)) knot)))
              m.w m.t,
            rmad := 0, statsDirty := true, kwargsSave := ⟨m.kwargsSave.ext, 3⟩ },
    ?_, rfl, rfl, rfl, rfl, List.filter_sublist _, rfl, rfl, rfl⟩
  rw [show cure_knots K m =
    (cureFilter m.t (mask_index (boolMask m.w)) m.knots).bind (fun ktNew =>
      splineModelNew K m.t m.y 23 (some ktNew) (some m.w) (some m.kwargsSave)) from rfl]
  rw [hcf, Option.some_bind]
  rw [splineModelNew_override K m.t m.y _ 23 (some m.w) (some m.kwargsSave)
    hy.symm (by norm_num) (by simpa using hw)]
  rfl

/-- Concrete fixture: a four-point model with a masked-out middle run. -/
def exM2 : SplineModel :=
  { t := [0, 1, 2, 3], y := [0, 0, 0, 0], knots := [3/2, 2], w := [1, 0, 0, 1],
    selfPred := [0, 0, 0, 0], rmad := 0, statsDirty := false,
    kwargsSave := ⟨"const", 3⟩ }

/-- Witness for C6 at `exM2`. -/
theorem cure_knots_spec_witness :
    ∃ m', cure_knots exK exM2 = some m' ∧
      m'.t = exM2.t ∧ m'.y = exM2.y ∧ m'.w = exM2.w ∧
      m'.knots = exM2.knots.filter
        (fun knot => !(insideSomeRun exM2.t (mask_index (boolMask exM2.w)) knot)) ∧
      m'.knots.Sublist exM2.knots ∧
      m'.kwargsSave = ⟨exM2.kwargsSave.ext, 3⟩ ∧
      m'.selfPred = exK ⟨exM2.kwargsSave.ext, 3⟩ exM2.t exM2.y m'.knots exM2.w exM2.t ∧
      m'.statsDirty = true :=
  cure_knots_spec exK exM2 rfl rfl

/-! ## Boundary safety of the ensemble shifts: claim C7 -/

lemma sorted_head?_le {l : List ℚ} {a x : ℚ} (hs : l.Sorted (· ≤ ·))
    (hh : l.head? = some a) (hx : x ∈ l) : a ≤ x := by
  cases l with
  | nil => cases hx
  | cons b rest =>
    have hab : a = b := by
      simp only [List.head?_cons, Option.some.injEq] at hh
      exact hh.symm
    subst hab
    rcases List.mem_cons.mp hx with rfl | hx'
    · exact le_rfl
    · exact (List.sorted_cons.mp hs).1 x hx'

lemma sorted_le_getLast? {l : List ℚ} {a x : ℚ} (hs : l.Sorted (· ≤ ·))
    (hh : l.getLast? = some a) (hx : x ∈ l) : x ≤ a := by
  induction l with
  | nil => cases hx
  | cons b rest ih =>
    cases rest with
    | nil =>
      have hab : a = b := by
        simp only [List.getLast?_singleton, Option.some.injEq] at hh
        exact hh.symm
      subst hab
      rcases List.mem_cons.mp hx with rfl | hx'
      · exact le_rfl
      · cases hx'
    | cons c rest2 =>
      rw [List.getLast?_cons_cons] at hh
      have ham : a ∈ c :: rest2 := by
        obtain ⟨hne, heq⟩ := List.mem_getLast?_eq_getLast (by rw [hh]; rfl)
        rw [heq]
        exact List.getLast_mem hne
      rcases List.mem_cons.mp hx with rfl | hx'
      · exact (List.sorted_cons.mp hs).1 a ham
      · exact ih (List.sorted_cons.mp hs).2 hh hx'

lemma mem_leftShiftList {dn : ℕ} {sL s : ℚ} :
    s ∈ leftShiftList dn sL ↔
      ∃ j : ℕ, j < dn ∧ s = (((j : ℤ) - (dn : ℤ) : ℤ) : ℚ) * sL := by
  constructor
  · intro h
    obtain ⟨j, hj, he⟩ := List.mem_map.mp h
    exact ⟨j, List.mem_range.mp hj, he.symm⟩
  · rintro ⟨j, hj, rfl⟩
    exact List.mem_map.mpr ⟨j, List.mem_range.mpr hj, rfl⟩

lemma mem_rightShiftList {dn : ℕ} {sR s : ℚ} :
    s ∈ rightShiftList dn sR ↔
      ∃ j : ℕ, j < dn ∧ s = ((j : ℚ) + 1) * sR := by
  constructor
  · intro h
    obtain ⟨j, hj, he⟩ := List.mem_map.mp h
    exact ⟨j, List.mem_range.mp hj, he.symm⟩
  · rintro ⟨j, hj, rfl⟩
    exact List.mem_map.mpr ⟨j, List.mem_range.mpr hj, rfl⟩

/-- C7: for a base model with ascending interior knots, any `duplicates > 0`
and any `0 < p < 1`, every shifted knot of every one of the `2 * duplicates`
shifted knot sets built by `knot_shift_aggregate` (shifts `i * scaleLeft`,
`i ∈ [-d, -1]`, and `i * scaleRight`, `i ∈ [1, d]`, with
`q = (1 - p) / d`) stays strictly inside the open domain `(t0, tn)`, and every
shift of each family (the extreme `|i| = d` included) keeps a margin of at
least the fraction `p` of the original boundary gap on its side. -/
theorem shifted_knots_boundary_safe (m : SplineModel) (d : ℤ) (p k0 kn t0 tn : ℚ)
    (hk0 : m.knots.head? = some k0) (hkn : m.knots.getLast? = some kn)
    (ht0 : m.t.head? = some t0) (htn : m.t.getLast? = some tn)
    (hsort : m.knots.Sorted (· ≤ ·))
    (hd : 0 < d) (hp0 : 0 < p) (hp1 : p < 1)
    (hlo : t0 < k0) (hhi : kn < tn) :
    (∀ s ∈ leftShiftList d.toNat ((k0 - t0) * ((1 - p) / (d : ℚ))),
      ∀ knot ∈ m.knots,
        t0 < knot + s ∧ knot + s < tn ∧ t0 + p * (k0 - t0) ≤ knot + s) ∧
    (∀ s ∈ rightShiftList d.toNat ((tn - kn) * ((1 - p) / (d : ℚ))),
      ∀ knot ∈ m.knots,
        t0 < knot + s ∧ knot + s < tn ∧ knot + s ≤ tn - p * (tn - kn)) := by
  have hD0 : (0 : ℚ) < (d : ℚ) := by exact_mod_cast hd
  have hDt : ((d.toNat : ℤ) : ℚ) = (d : ℚ) := by
    rw [Int.toNat_of_nonneg hd.le]
  have hq : (0 : ℚ) < (1 - p) / (d : ℚ) := div_pos (by linarith) hD0
  have hsL : (0 : ℚ) < (k0 - t0) * ((1 - p) / (d : ℚ)) :=
    mul_pos (by linarith) hq
  have hsR : (0 : ℚ) < (tn - kn) * ((1 - p) / (d : ℚ)) :=
    mul_pos (by linarith) hq
  have hDsL : (d : ℚ) * ((k0 - t0) * ((1 - p) / (d : ℚ))) = (k0 - t0) * (1 - p) := by
    field_simp
  have hDsR : (d : ℚ) * ((tn - kn) * ((1 - p) / (d : ℚ))) = (tn - kn) * (1 - p) := by
    field_simp
  constructor
  · intro s hserv knot hknot
    obtain ⟨j, hj, rfl⟩ := mem_leftShiftList.mp hserv
    have hk0le : k0 ≤ knot := sorted_head?_le hsort hk0 hknot
    have hknle : knot ≤ kn := sorted_le_getLast? hsort hkn hknot
    have hi1 : (((j : ℤ) - (d.toNat : ℤ) : ℤ) : ℚ) ≤ -1 := by
      have : (j : ℤ) - (d.toNat : ℤ) ≤ -1 := by omega
      exact_mod_cast this
    have hiD : -(d : ℚ) ≤ (((j : ℤ) - (d.toNat : ℤ) : ℤ) : ℚ) := by
      rw [← hDt]
      have : -(d.toNat : ℤ) ≤ (j : ℤ) - (d.toNat : ℤ) := by omega
      exact_mod_cast this
    have hmul1 : (((j : ℤ) - (d.toNat : ℤ) : ℤ) : ℚ) * ((k0 - t0) * ((1 - p) / (d : ℚ))) ≤
        (-1) * ((k0 - t0) * ((1 - p) / (d : ℚ))) :=
      mul_le_mul_of_nonneg_right hi1 hsL.le
    have hmul2 : (-(d : ℚ)) * ((k0 - t0) * ((1 - p) / (d : ℚ))) ≤
        (((j : ℤ) - (d.toNat : ℤ) : ℤ) : ℚ) * ((k0 - t0) * ((1 - p) / (d : ℚ))) :=
      mul_le_mul_of_nonneg_right hiD hsL.le
    have hmargin : (0 : ℚ) < p * (k0 - t0) := mul_pos hp0 (by linarith)
    refine ⟨?_, ?_, ?_⟩
    · nlinarith [hmul2, hDsL]
    · nlinarith [hmul1]
    · nlinarith [hmul2, hDsL]
  · intro s hserv knot hknot
    obtain ⟨j, hj, rfl⟩ := mem_rightShiftList.mp hserv
    have hk0le : k0 ≤ knot := sorted_head?_le hsort hk0 hknot
    have hknle : knot ≤ kn := sorted_le_getLast? hsort hkn hknot
    have hi1 : (1 : ℚ) ≤ (j : ℚ) + 1 := by
      have : (0 : ℚ) ≤ (j : ℚ) := Nat.cast_nonneg j
      linarith
    have hiD : (j : ℚ) + 1 ≤ (d : ℚ) := by
      rw [← hDt]
      have : (j : ℤ) + 1 ≤ (d.toNat : ℤ) := by omega
      exact_mod_cast this
    have hmul1 : (1 : ℚ) * ((tn - kn) * ((1 - p) / (d : ℚ))) ≤
        ((j : ℚ) + 1) * ((tn - kn) * ((1 - p) / (d : ℚ))) :=
      mul_le_mul_of_nonneg_right hi1 hsR.le
    have hmul2 : ((j : ℚ) + 1) * ((tn - kn) * ((1 - p) / (d : ℚ))) ≤
        (d : ℚ) * ((tn - kn) * ((1 - p) / (d : ℚ))) :=
      mul_le_mul_of_nonneg_right hiD hsR.le
    have hmargin : (0 : ℚ) < p * (tn - kn) := mul_pos hp0 (by linarith)
    refine ⟨?_, ?_, ?_⟩
    · nlinarith [hmul1]
    · nlinarith [hmul2, hDsR]
    · nlinarith [hmul2, hDsR]

/-- Witness for C7 at `exM2` (knots `[3/2, 2]` inside `(0, 3)`),
`duplicates = 1`, `p = 1/2`. -/
theorem shifted_knots_boundary_safe_witness :
    (∀ s ∈ leftShiftList (1 : ℤ).toNat ((3/2 - 0) * ((1 - 1/2) / ((1 : ℤ) : ℚ))),
      ∀ knot ∈ exM2.knots,
        (0 : ℚ) < knot + s ∧ knot + s < 3 ∧ (0 : ℚ) + 1/2 * (3/2 - 0) ≤ knot + s) ∧
    (∀ s ∈ rightShiftList (1 : ℤ).toNat ((3 - 2) * ((1 - 1/2) / ((1 : ℤ) : ℚ))),
      ∀ knot ∈ exM2.knots,
        (0 : ℚ) < knot + s ∧ knot + s < 3 ∧ knot + s ≤ 3 - 1/2 * (3 - 2)) :=
  shifted_knots_boundary_safe exM2 1 (1/2) (3/2) 2 0 3 rfl rfl rfl rfl
    (by norm_num [exM2, List.sorted_cons]) (by norm_num) (by norm_num) (by norm_num)
    (by norm_num) (by norm_num)

/-! ## The ensemble aggregator: claims C1, C2 -/

/-! Concrete fixtures for the aggregate pipeline: 47 evenly spaced samples,
an all-zero series, and the zero-predicting kernel `exK` — the exact
least-squares fit of all-zero data is the zero function, so the abstract
kernel reproduces the real solver's outputs exactly on this run.  The
refinement arguments are `target_d = 47 = n`, `maxiter = 1`: the very first
candidate mask of every `refine` call (all-outlier, since the perfect fit
gives `rmad = 0` and NaN deviations) is within the target distance, so each
call converges at iteration 0 and never commits a mask — no refit with
degenerate weights ever happens, and every float operation of the real run
(`scale_left = 1.5`, `scale_right = 21.5`, shifted knots `1.5` and `24.5`)
is exact.  With `n = 47`, `N = 47 // 23 = 2` and the freshly derived default
knots are `t[1::2] = [1, 3, …, 45]`, all strictly interior. -/

def exT47 : List ℚ := [0,1,2,3,4,5,6,7,8,9,10,11,12,13,14,15,16,17,18,19,20,21,22,23,24,25,26,27,28,29,30,31,32,33,34,35,36,37,38,39,40,41,42,43,44,45,46]
def exZeros47 : List ℚ := [0,0,0,0,0,0,0,0,0,0,0,0,0,0,0,0,0,0,0,0,0,0,0,0,0,0,0,0,0,0,0,0,0,0,0,0,0,0,0,0,0,0,0,0,0,0,0]
def exOnes47 : List ℚ := [1,1,1,1,1,1,1,1,1,1,1,1,1,1,1,1,1,1,1,1,1,1,1,1,1,1,1,1,1,1,1,1,1,1,1,1,1,1,1,1,1,1,1,1,1,1,1]
def exKnotsD47 : List ℚ := [1,3,5,7,9,11,13,15,17,19,21,23,25,27,29,31,33,35,37,39,41,43,45]

def exBase47 : SplineModel :=
  { t := exT47, y := exZeros47, knots := [3], w := exOnes47, selfPred := exZeros47,
    rmad := 0, statsDirty := true, kwargsSave := ⟨"const", 3⟩ }

def exMemberL47 : SplineModel :=
  { t := exT47, y := exZeros47, knots := [3/2], w := exOnes47, selfPred := exZeros47,
    rmad := 0, statsDirty := false, kwargsSave := ⟨"const", 3⟩ }

def exMemberR47 : SplineModel :=
  { t := exT47, y := exZeros47, knots := [49/2], w := exOnes47, selfPred := exZeros47,
    rmad := 0, statsDirty := false, kwargsSave := ⟨"const", 3⟩ }

def exModelNew47 : SplineModel :=
  { t := exT47, y := exZeros47, knots := exKnotsD47, w := exOnes47, selfPred := exZeros47,
    rmad := 0, statsDirty := true, kwargsSave := ⟨"const", 3⟩ }

def exAggFinal47 : SplineModel :=
  { t := exT47, y := exZeros47, knots := exKnotsD47, w := exOnes47, selfPred := exZeros47,
    rmad := 0, statsDirty := false, kwargsSave := ⟨"const", 3⟩ }

lemma exBase47_def :
    splineModelNew exK exT47 exZeros47 23 (some [3]) none none = some exBase47 := by
  norm_num [exK, exT47, exZeros47, exOnes47, exBase47, splineModelNew, replace_mask,
    mkKwargs, List.replicate]

def exMemberLInit47 : SplineModel :=
  { exMemberL47 with statsDirty := true }

def exMemberRInit47 : SplineModel :=
  { exMemberR47 with statsDirty := true }

lemma exMemberLInit47_def : memberInitial exK exBase47 (-(3/2)) = some exMemberLInit47 := by
  norm_num [exK, exT47, exZeros47, exOnes47, exBase47, exMemberL47, exMemberLInit47,
    memberInitial, splineModelNew, replace_mask, mkKwargs, List.replicate]

lemma exMemberRInit47_def : memberInitial exK exBase47 (43/2) = some exMemberRInit47 := by
  norm_num [exK, exT47, exZeros47, exOnes47, exBase47, exMemberR47, exMemberRInit47,
    memberInitial, splineModelNew, replace_mask, mkKwargs, List.replicate]

lemma exMemberL47_refine :
    refine exK exMemberLInit47 47 1 = some (⟨0, "Converged", 0, 47⟩, exMemberL47, 1) := by
  norm_num [exK, exT47, exZeros47, exOnes47, exMemberL47, exMemberLInit47, refine,
    refineGo, inlier_predicate, classifyUpd, maskedAbsResiduals, median, sortLe,
    insertLe, dist, boolMask, List.zip]

lemma exMemberR47_refine :
    refine exK exMemberRInit47 47 1 = some (⟨0, "Converged", 0, 47⟩, exMemberR47, 1) := by
  norm_num [exK, exT47, exZeros47, exOnes47, exMemberR47, exMemberRInit47, refine,
    refineGo, inlier_predicate, classifyUpd, maskedAbsResiduals, median, sortLe,
    insertLe, dist, boolMask, List.zip]

lemma exMemberL47_def : memberModel exK exBase47 (-(3/2)) 47 1 = some exMemberL47 := by
  rw [show memberModel exK exBase47 (-(3/2)) 47 1 =
    (memberInitial exK exBase47 (-(3/2))).bind (fun mm =>
      (refine exK mm 47 1).map fun r => r.2.1) from rfl]
  rw [exMemberLInit47_def, Option.some_bind, exMemberL47_refine, Option.map_some']

lemma exMemberR47_def : memberModel exK exBase47 (43/2) 47 1 = some exMemberR47 := by
  rw [show memberModel exK exBase47 (43/2) 47 1 =
    (memberInitial exK exBase47 (43/2)).bind (fun mm =>
      (refine exK mm 47 1).map fun r => r.2.1) from rfl]
  rw [exMemberRInit47_def, Option.some_bind, exMemberR47_refine, Option.map_some']

lemma exModelNew47_def :
    splineModelNew exK exT47 exZeros47 23 none (some exOnes47)
      (some (⟨"const", 3⟩ : FitConfig)) = some exModelNew47 := by
  norm_num [exK, exT47, exZeros47, exOnes47, exKnotsD47, exModelNew47, splineModelNew,
    replace_mask, mkKwargs, pySlice, List.range, List.range.loop, List.filterMap,
    (by decide : Int.fdiv 47 23 = 2), (by decide : Int.fdiv 2 2 = 1)]

lemma exCure47_def : cure_knots exK exModelNew47 = some exModelNew47 := by
  norm_num [exK, exT47, exZeros47, exOnes47, exKnotsD47, exModelNew47, cure_knots,
    cureFilter, runSkips, mask_index, mask_index_core, boolMask, splineModelNew,
    replace_mask, mkKwargs]

lemma exFinalRefine47 :
    refine exK exModelNew47 47 1 = some (⟨0, "Converged", 0, 47⟩, exAggFinal47, 1) := by
  norm_num [exK, exT47, exZeros47, exOnes47, exKnotsD47, exModelNew47, exAggFinal47,
    refine, refineGo, inlier_predicate, classifyUpd, maskedAbsResiduals, median,
    sortLe, insertLe, dist, boolMask, List.zip]

lemma exShifts47 :
    leftShiftList (1 : ℤ).toNat ((3 - 0) * ((1 - 1/2) / ((1 : ℤ) : ℚ))) ++
      rightShiftList (1 : ℤ).toNat ((46 - 3) * ((1 - 1/2) / ((1 : ℤ) : ℚ))) =
    [-(3/2), 43/2] := by
  norm_num [leftShiftList, rightShiftList, (by decide : List.range 1 = [0]),
    (by decide : (1 : ℤ).toNat = 1)]

lemma exMapM47 :
    (([-(3/2), 43/2] : List ℚ).mapM fun s => memberModel exK exBase47 s 47 1) =
      some [exMemberL47, exMemberR47] := by
  simp [List.mapM, List.mapM.loop, exMemberL47_def, exMemberR47_def]

lemma exTail47 :
    aggregateTail exK exBase47 47 1 [exMemberL47, exMemberR47] = some exAggFinal47 := by
  have hfold : ([exMemberL47, exMemberR47].foldl
      (fun acc mm => acc.zipWith (· * ·) mm.w) exBase47.w) = exOnes47 := by
    norm_num [exMemberL47, exMemberR47, exBase47, exOnes47, exT47, exZeros47,
      List.zipWith, List.foldl]
  rw [show aggregateTail exK exBase47 47 1 [exMemberL47, exMemberR47] =
    (splineModelNew exK exBase47.t exBase47.y 23 none
        (some ([exMemberL47, exMemberR47].foldl
          (fun acc mm => acc.zipWith (· * ·) mm.w) exBase47.w))
        (some exBase47.kwargsSave)).bind (fun modelNew =>
      (cure_knots exK modelNew).bind fun modelAgg =>
        (refine exK modelAgg 47 1).map fun r => r.2.1) from rfl]
  rw [hfold]
  rw [show exBase47.t = exT47 from rfl, show exBase47.y = exZeros47 from rfl,
    show exBase47.kwargsSave = (⟨"const", 3⟩ : FitConfig) from rfl]
  rw [exModelNew47_def, Option.some_bind, exCure47_def, Option.some_bind,
    exFinalRefine47, Option.map_some']

lemma exAgg47_def :
    knot_shift_aggregate exK exBase47 1 (1/2) 47 1 = some exAggFinal47 := by
  rw [show knot_shift_aggregate exK exBase47 1 (1/2) 47 1 =
    (if 0 < (1 : ℤ) then
      if 0 < (1/2 : ℚ) ∧ (1/2 : ℚ) < 1 then
        ((leftShiftList (1 : ℤ).toNat ((3 - 0) * ((1 - 1/2) / ((1 : ℤ) : ℚ))) ++
          rightShiftList (1 : ℤ).toNat ((46 - 3) * ((1 - 1/2) / ((1 : ℤ) : ℚ)))).mapM
            (fun s => memberModel exK exBase47 s 47 1)).bind
          (aggregateTail exK exBase47 47 1)
      else none
    else none) from rfl]
  rw [if_pos (by norm_num : (0 : ℤ) < 1),
    if_pos (by norm_num : (0 : ℚ) < 1/2 ∧ (1/2 : ℚ) < 1)]
  rw [exShifts47, exMapM47, Option.some_bind, exTail47]


lemma splineModelNew_len_none (K : Kernel) (t y : List ℚ) (nknots : ℤ)
    (ov : Option (List ℚ)) (wOpt : Option (List ℚ)) (sa : Option FitConfig)
    (h : t.length ≠ y.length) :
    splineModelNew K t y nknots ov wOpt sa = none := by
  simp [splineModelNew, h]

/-- C1 (amended): every temporary ensemble member of `knot_shift_aggregate` is
constructed on the base model's series and shifted knots with the *default*
all-ones weight mask — the `w=` argument is not forwarded, so the member's
initial mask is all-inlier regardless of the base model's current mask — and
with the base model's saved fit configuration (`k` re-forced to 3). -/
theorem member_initial_default_mask (K : Kernel) (m : SplineModel) (shift : ℚ)
    (mm : SplineModel) (h : memberInitial K m shift = some mm) :
    mm.w = List.replicate m.t.length 1 ∧ mm.t = m.t ∧ mm.y = m.y ∧
    mm.knots = m.knots.map (fun x => x + shift) ∧
    mm.kwargsSave = ⟨m.kwargsSave.ext, 3⟩ ∧ mm.statsDirty = true ∧
    boolMask mm.w = List.replicate m.t.length true := by
  by_cases hlen : m.t.length = m.y.length
  · rw [show memberInitial K m shift =
      splineModelNew K m.t m.y 23 (some (m.knots.map fun x => x + shift)) none
        (some m.kwargsSave) from rfl] at h
    rw [splineModelNew_override K m.t m.y _ 23 none (some m.kwargsSave) hlen
      (by norm_num) (by simp)] at h
    obtain rfl := (Option.some.injEq _ _).mp h
    refine ⟨by simp, rfl, rfl, rfl, rfl, rfl, ?_⟩
    simp [Option.getD_none, boolMask, List.map_replicate]
  · rw [show memberInitial K m shift =
      splineModelNew K m.t m.y 23 (some (m.knots.map fun x => x + shift)) none
        (some m.kwargsSave) from rfl,
      splineModelNew_len_none K m.t m.y 23 _ none (some m.kwargsSave) hlen] at h
    cases h

def exT4 : List ℚ := [0, 1, 2, 3]
def exY4 : List ℚ := [0, 0, 0, 0]
def exW4 : List ℚ := [1, 0, 1, 1]

/-- Concrete base model whose current mask `[1,0,1,1]` is not all-ones. -/
def exBase1 : SplineModel :=
  { t := exT4, y := exY4, knots := [3/2], w := exW4, selfPred := exY4,
    rmad := 0, statsDirty := true, kwargsSave := ⟨"const", 3⟩ }

/-- The ensemble member built on `exBase1` with shift `-(3/4)` (the shift the
aggregator would use at `duplicates = 1`, `p = 1/2`). -/
def exMemberC1 : SplineModel :=
  { t := exT4, y := exY4, knots := [3/4], w := [1, 1, 1, 1], selfPred := exY4,
    rmad := 0, statsDirty := true, kwargsSave := ⟨"const", 3⟩ }

lemma exBase1_def :
    splineModelNew exK exT4 exY4 23 (some [3/2]) (some exW4) none = some exBase1 := by
  norm_num [exK, exT4, exY4, exW4, exBase1, splineModelNew, replace_mask, mkKwargs]

lemma exMemberC1_def : memberInitial exK exBase1 (-(3/4)) = some exMemberC1 := by
  norm_num [exK, exT4, exY4, exW4, exBase1, exMemberC1, memberInitial,
    splineModelNew, replace_mask, mkKwargs, List.replicate]

/-- Counterexample for C1 as stated: on a base model with current mask
`[1,0,1,1]`, the temporary member is created with the all-ones mask
`[1,1,1,1]`, not with the base model's current mask. -/
theorem member_initial_mask_counterexample :
    splineModelNew exK exT4 exY4 23 (some [3/2]) (some exW4) none = some exBase1 ∧
    (memberInitial exK exBase1 (-(3/4))).map SplineModel.w = some [1, 1, 1, 1] ∧
    exBase1.w = [1, 0, 1, 1] ∧ ([1, 1, 1, 1] : List ℚ) ≠ [1, 0, 1, 1] := by
  refine ⟨exBase1_def, ?_, rfl, by norm_num⟩
  rw [exMemberC1_def, Option.map_some']
  rfl

/-- Witness for the amended C1 at `exBase1`. -/
theorem member_initial_default_mask_witness :
    exMemberC1.w = List.replicate exBase1.t.length 1 ∧
    exMemberC1.t = exBase1.t ∧ exMemberC1.y = exBase1.y ∧
    exMemberC1.knots = exBase1.knots.map (fun x => x + (-(3/4))) ∧
    exMemberC1.kwargsSave = ⟨exBase1.kwargsSave.ext, 3⟩ ∧
    exMemberC1.statsDirty = true ∧
    boolMask exMemberC1.w = List.replicate exBase1.t.length true :=
  member_initial_default_mask exK exBase1 (-(3/4)) exMemberC1 exMemberC1_def

lemma boolMask_zipWith_mul : ∀ (a b : List ℚ),
    boolMask (a.zipWith (· * ·) b) = (boolMask a).zipWith (· && ·) (boolMask b) := by
  intro a
  induction a with
  | nil => intro b; rfl
  | cons x xs ih =>
    intro b
    cases b with
    | nil => rfl
    | cons y ys =>
      show (decide (x * y ≠ 0)) :: boolMask (xs.zipWith (· * ·) ys) =
        (decide (x ≠ 0) && decide (y ≠ 0)) :: ((boolMask xs).zipWith (· && ·) (boolMask ys))
      rw [ih]
      congr 1
      rw [show (decide (x * y ≠ 0)) = decide (x ≠ 0 ∧ y ≠ 0) from
        decide_eq_decide.mpr mul_ne_zero_iff]
      by_cases h1 : x ≠ 0 <;> by_cases h2 : y ≠ 0 <;> simp [h1, h2]

lemma boolMask_foldl_consensus : ∀ (l : List SplineModel) (w0 : List ℚ),
    boolMask (l.foldl (fun acc mm => acc.zipWith (· * ·) mm.w) w0) =
      l.foldl (fun acc mm => acc.zipWith (· && ·) (boolMask mm.w)) (boolMask w0) := by
  intro l
  induction l with
  | nil => intro w0; rfl
  | cons mm rest ih =>
    intro w0
    simp only [List.foldl_cons]
    rw [ih, boolMask_zipWith_mul]

lemma splineModelNew_none_knots {K : Kernel} {t y w : List ℚ}
    {sa : Option FitConfig} {mm : SplineModel} {nk : ℤ}
    (h : splineModelNew K t y nk none (some w) sa = some mm) :
    t.length = y.length ∧ nk ≠ 0 ∧ w.length = t.length ∧
    ∃ ks, pySlice t (max (Int.fdiv (Int.fdiv (y.length : ℤ) nk) 2) 1).toNat
        (Int.fdiv (y.length : ℤ) nk) = some ks ∧
      mm = { t := t, y := y, knots := ks, w := w,
             selfPred := K (mkKwargs sa) t y ks w t, rmad := 0,
             statsDirty := true, kwargsSave := mkKwargs sa } := by
  by_cases hlen : t.length = y.length
  · rw [show splineModelNew K t y nk none (some w) sa =
      (if t.length = y.length then
        if nk = 0 then none
        else
          (pySlice t (max (Int.fdiv (Int.fdiv (y.length : ℤ) nk) 2) 1).toNat
              (Int.fdiv (y.length : ℤ) nk)).bind fun knots =>
            replace_mask K
              { t := t, y := y, knots := knots, w := w, selfPred := [],
                rmad := 0, statsDirty := true, kwargsSave := mkKwargs sa } w
      else none) from rfl, if_pos hlen] at h
    by_cases hnk : nk = 0
    · rw [if_pos hnk] at h; cases h
    · rw [if_neg hnk] at h
      rcases hks : pySlice t (max (Int.fdiv (Int.fdiv (y.length : ℤ) nk) 2) 1).toNat
          (Int.fdiv (y.length : ℤ) nk) with _ | ks
      · rw [hks] at h; cases h
      · rw [hks, Option.some_bind] at h
        unfold replace_mask at h
        by_cases hwl : w.length = t.length
        · rw [if_pos hwl] at h
          obtain rfl := (Option.some.injEq _ _).mp h
          exact ⟨hlen, hnk, hwl, ks, rfl, rfl⟩
        · rw [if_neg hwl] at h; cases h
  · rw [splineModelNew_len_none K t y nk none (some w) sa hlen] at h
    cases h

/-- C2 (amended): the final model returned by `knot_shift_aggregate` is built
on the original series with the consensus mask (the elementwise product of
the base mask and all member post-refinement masks, whose boolean meaning is
the elementwise AND), but with a *freshly derived default knot set*
(`nknots = 23`, knots re-derived by the slice `t[max(N // 2, 1)::N]` with
`N = n // 23`), not with the base model's knot set; then `cure_knots` is
applied and one more `refine` is run, and that cured, re-refined instance is
the return value. -/
theorem knot_shift_aggregate_final_model (K : Kernel) (model : SplineModel)
    (d : ℤ) (p : ℚ) (td mi : ℤ) (magg : SplineModel)
    (h : knot_shift_aggregate K model d p td mi = some magg) :
    ∃ k0 kn t0 tn shiftedModels modelNew modelAgg res,
      model.knots.head? = some k0 ∧ model.knots.getLast? = some kn ∧
      model.t.head? = some t0 ∧ model.t.getLast? = some tn ∧
      ((leftShiftList d.toNat ((k0 - t0) * ((1 - p) / (d : ℚ))) ++
          rightShiftList d.toNat ((tn - kn) * ((1 - p) / (d : ℚ)))).mapM
        (fun s => memberModel K model s td mi)) = some shiftedModels ∧
      splineModelNew K model.t model.y 23 none
        (some (shiftedModels.foldl (fun acc mm => acc.zipWith (· * ·) mm.w) model.w))
        (some model.kwargsSave) = some modelNew ∧
      modelNew.t = model.t ∧ modelNew.y = model.y ∧
      modelNew.w = shiftedModels.foldl (fun acc mm => acc.zipWith (· * ·) mm.w) model.w ∧
      boolMask modelNew.w = shiftedModels.foldl
        (fun acc mm => acc.zipWith (· && ·) (boolMask mm.w)) (boolMask model.w) ∧
      (∃ ks, pySlice model.t
          (max (Int.fdiv (Int.fdiv (model.y.length : ℤ) 23) 2) 1).toNat
          (Int.fdiv (model.y.length : ℤ) 23) = some ks ∧ modelNew.knots = ks) ∧
      cure_knots K modelNew = some modelAgg ∧
      refine K modelAgg td mi = some res ∧ magg = res.2.1 := by
  unfold knot_shift_aggregate at h
  by_cases hd : 0 < d
  · rw [if_pos hd] at h
    by_cases hp : 0 < p ∧ p < 1
    · rw [if_pos hp] at h
      rcases hk0 : model.knots.head? with _ | k0
      · rw [hk0] at h; simp at h
      rcases hkn : model.knots.getLast? with _ | kn
      · rw [hk0, hkn] at h; simp at h
      rcases ht0 : model.t.head? with _ | t0
      · rw [hk0, hkn, ht0] at h; simp at h
      rcases htn : model.t.getLast? with _ | tn
      · rw [hk0, hkn, ht0, htn] at h; simp at h
      rw [hk0, hkn, ht0, htn] at h
      simp only at h
      rcases hsm : ((leftShiftList d.toNat ((k0 - t0) * ((1 - p) / (d : ℚ))) ++
          rightShiftList d.toNat ((tn - kn) * ((1 - p) / (d : ℚ)))).mapM
            (fun s => memberModel K model s td mi)) with _ | shiftedModels
      · rw [hsm] at h; cases h
      · rw [hsm, Option.some_bind] at h
        unfold aggregateTail at h
        rcases hmn : splineModelNew K model.t model.y 23 none
            (some (shiftedModels.foldl
              (fun acc mm => acc.zipWith (· * ·) mm.w) model.w))
            (some model.kwargsSave) with _ | modelNew
        · rw [hmn] at h; cases h
        · rw [hmn, Option.some_bind] at h
          rcases hcu : cure_knots K modelNew with _ | modelAgg
          · rw [hcu] at h; cases h
          · rw [hcu, Option.some_bind] at h
            rcases hrf : refine K modelAgg td mi with _ | res
            · rw [hrf] at h; cases h
            · rw [hrf, Option.map_some'] at h
              obtain rfl := (Option.some.injEq _ _).mp h
              obtain ⟨_, _, _, ks, hks, hmmeq⟩ := splineModelNew_none_knots hmn
              refine ⟨k0, kn, t0, tn, shiftedModels, modelNew, modelAgg, res,
                rfl, rfl, rfl, rfl, hsm, hmn, ?_, ?_, ?_, ?_, ⟨ks, hks, ?_⟩,
                hcu, hrf, rfl⟩
              · rw [hmmeq]
              · rw [hmmeq]
              · rw [hmmeq]
              · rw [hmmeq]
                exact boolMask_foldl_consensus shiftedModels model.w
              · rw [hmmeq]
    · rw [if_neg hp] at h; cases h
  · rw [if_neg hd] at h; cases h

/-- Counterexample for C2 as stated: on a base model with knot set `[3]` over
47 samples of an all-zero series, the aggregate (with `target_d = 47`,
`maxiter = 1`) returns a model whose knots are the freshly derived default
`[1, 3, …, 45]` — not a subset of (nor equal to) the base knot set, which the
claimed construction (base knots, then pruning) would force.  The run is
exact for the real program: the least-squares fit of all-zero data is the
zero function (matching `exK`), a zero `rmad` gives NaN deviations and an
all-outlier candidate whose Hamming distance `47 ≤ target_d` converges every
`refine` call at iteration 0 without committing, so no degenerate refit ever
occurs and all shift arithmetic (`1.5`, `21.5`, `24.5`) is float-exact. -/
theorem aggregate_final_knots_counterexample :
    splineModelNew exK exT47 exZeros47 23 (some [3]) none none = some exBase47 ∧
    knot_shift_aggregate exK exBase47 1 (1/2) 47 1 = some exAggFinal47 ∧
    exBase47.knots = [3] ∧ exAggFinal47.knots = exKnotsD47 ∧
    ¬ exAggFinal47.knots ⊆ exBase47.knots ∧ exAggFinal47.knots ≠ exBase47.knots := by
  refine ⟨exBase47_def, exAgg47_def, rfl, rfl, ?_, ?_⟩
  · intro hsub
    have h1 : (1 : ℚ) ∈ exAggFinal47.knots := by
      rw [show exAggFinal47.knots = exKnotsD47 from rfl]
      norm_num [exKnotsD47]
    have h2 := hsub h1
    rw [show exBase47.knots = [3] from rfl] at h2
    norm_num at h2
  · intro he
    rw [show exAggFinal47.knots = exKnotsD47 from rfl,
      show exBase47.knots = [3] from rfl] at he
    norm_num [exKnotsD47] at he

/-- Witness for the amended C2 at the concrete 47-sample run. -/
theorem knot_shift_aggregate_final_model_witness :
    ∃ k0 kn t0 tn shiftedModels modelNew modelAgg res,
      exBase47.knots.head? = some k0 ∧ exBase47.knots.getLast? = some kn ∧
      exBase47.t.head? = some t0 ∧ exBase47.t.getLast? = some tn ∧
      ((leftShiftList (1 : ℤ).toNat ((k0 - t0) * ((1 - 1/2) / ((1 : ℤ) : ℚ))) ++
          rightShiftList (1 : ℤ).toNat ((tn - kn) * ((1 - 1/2) / ((1 : ℤ) : ℚ)))).mapM
        (fun s => memberModel exK exBase47 s 47 1)) = some shiftedModels ∧
      splineModelNew exK exBase47.t exBase47.y 23 none
        (some (shiftedModels.foldl
          (fun acc mm => acc.zipWith (· * ·) mm.w) exBase47.w))
        (some exBase47.kwargsSave) = some modelNew ∧
      modelNew.t = exBase47.t ∧ modelNew.y = exBase47.y ∧
      modelNew.w = shiftedModels.foldl
        (fun acc mm => acc.zipWith (· * ·) mm.w) exBase47.w ∧
      boolMask modelNew.w = shiftedModels.foldl
        (fun acc mm => acc.zipWith (· && ·) (boolMask mm.w)) (boolMask exBase47.w) ∧
      (∃ ks, pySlice exBase47.t
          (max (Int.fdiv (Int.fdiv (exBase47.y.length : ℤ) 23) 2) 1).toNat
          (Int.fdiv (exBase47.y.length : ℤ) 23) = some ks ∧ modelNew.knots = ks) ∧
      cure_knots exK modelNew = some modelAgg ∧
      refine exK modelAgg 47 1 = some res ∧ exAggFinal47 = res.2.1 :=
  knot_shift_aggregate_final_model exK exBase47 1 (1/2) 47 1 exAggFinal47 exAgg47_def

/-! ## Construction error handling: claims C8, C10 -/

lemma splineModelNew_nknots_zero (K : Kernel) (t y : List ℚ)
    (ov wOpt : Option (List ℚ)) (sa : Option FitConfig) :
    splineModelNew K t y 0 ov wOpt sa = none := by
  unfold splineModelNew
  split
  · simp
  · rfl

/-- C8 (amended): invalid parameters abort the corresponding calls — mismatched
`t`/`y` lengths, a zero knot count (`ZeroDivisionError`), a zero derived step
`N = n // knotCount` without override (zero-step slice), `proximityFactor`
outside `(0, 1)`, `duplicates ≤ 0`, a non-positive `maxIterations` and a
negative `targetDistance` all make the call fail (modelled as `none`).  The
code has no dedicated `ConfigurationError` type (these are plain
assertion/arithmetic errors), and a *negative* knot count whose derived step
is nonzero does not fail construction at all (see the counterexample). -/
theorem construction_error_cases :
    (∀ (K : Kernel) (t y : List ℚ) (nknots : ℤ) (ov wOpt : Option (List ℚ))
      (sa : Option FitConfig), t.length ≠ y.length →
      splineModelNew K t y nknots ov wOpt sa = none) ∧
    (∀ (K : Kernel) (t y : List ℚ) (ov wOpt : Option (List ℚ))
      (sa : Option FitConfig), splineModelNew K t y 0 ov wOpt sa = none) ∧
    (∀ (K : Kernel) (t y : List ℚ) (nknots : ℤ) (wOpt : Option (List ℚ))
      (sa : Option FitConfig), Int.fdiv (y.length : ℤ) nknots = 0 →
      splineModelNew K t y nknots none wOpt sa = none) ∧
    (∀ (K : Kernel) (m : SplineModel) (dd : ℤ) (p : ℚ) (td mi : ℤ),
      ¬ (0 < p ∧ p < 1) → knot_shift_aggregate K m dd p td mi = none) ∧
    (∀ (K : Kernel) (m : SplineModel) (dd : ℤ) (p : ℚ) (td mi : ℤ),
      dd ≤ 0 → knot_shift_aggregate K m dd p td mi = none) ∧
    (∀ (K : Kernel) (m : SplineModel) (td mi : ℤ), mi ≤ 0 →
      refine K m td mi = none) ∧
    (∀ (K : Kernel) (m : SplineModel) (td mi : ℤ), td < 0 →
      refine K m td mi = none) := by
  refine ⟨?_, ?_, ?_, ?_, ?_, ?_, ?_⟩
  · intro K t y nknots ov wOpt sa hlen
    exact splineModelNew_len_none K t y nknots ov wOpt sa hlen
  · intro K t y ov wOpt sa
    exact splineModelNew_nknots_zero K t y ov wOpt sa
  · intro K t y nknots wOpt sa hN
    by_cases hlen : t.length = y.length
    · by_cases hnk : nknots = 0
      · rw [hnk]; exact splineModelNew_nknots_zero K t y none wOpt sa
      · simp [splineModelNew, hlen, hnk, hN, pySlice]
    · exact splineModelNew_len_none K t y nknots none wOpt sa hlen
  · intro K m dd p td mi hp
    unfold knot_shift_aggregate
    by_cases hdd : 0 < dd
    · rw [if_pos hdd, if_neg hp]
    · rw [if_neg hdd]
  · intro K m dd p td mi hdd
    unfold knot_shift_aggregate
    rw [if_neg (by omega : ¬ 0 < dd)]
  · intro K m td mi hmi
    unfold refine
    rw [if_neg (by omega : ¬ (0 ≤ td ∧ 0 < mi))]
  · intro K m td mi htd
    unfold refine
    rw [if_neg (by omega : ¬ (0 ≤ td ∧ 0 < mi))]

/-- The constructed model of the C8 counterexample: 10 samples,
`nknots = -3`, so `N = 10 // -3 = -4`, start `max(-2, 1) = 1`, and the
negative-step slice `t[1::-4]` yields the single knot `[1]`. -/
def exNegKnots : SplineModel :=
  { t := [0, 1, 2, 3, 4, 5, 6, 7, 8, 9], y := [0, 0, 0, 0, 0, 0, 0, 0, 0, 0],
    knots := [1], w := [1, 1, 1, 1, 1, 1, 1, 1, 1, 1],
    selfPred := [0, 0, 0, 0, 0, 0, 0, 0, 0, 0], rmad := 0, statsDirty := true,
    kwargsSave := ⟨"const", 3⟩ }

/-- Counterexample for C8 as stated: a *negative* knot count (`-3`) with no
override does not fail construction — it succeeds with the derived knot `[1]`
— contradicting "non-positive knot count … fail with ConfigurationError". -/
theorem negative_knot_count_counterexample :
    splineModelNew exK [0, 1, 2, 3, 4, 5, 6, 7, 8, 9] [0, 0, 0, 0, 0, 0, 0, 0, 0, 0]
      (-3) none none none = some exNegKnots ∧
    some exNegKnots ≠ (none : Option SplineModel) ∧ exNegKnots.knots = [1] := by
  refine ⟨?_, by simp, rfl⟩
  norm_num [exK, exNegKnots, splineModelNew, pySlice, replace_mask, mkKwargs,
    List.replicate, List.range, List.range.loop, List.filterMap,
    (by decide : Int.fdiv 10 (-3) = -4), (by decide : Int.fdiv (-4) 2 = -2),
    (by decide : (max (-2 : ℤ) 1).toNat = 1), (by decide : ((-4 : ℤ)).natAbs = 4)]

/-- Witness for the amended C8 at concrete invalid inputs. -/
theorem construction_error_cases_witness :
    splineModelNew exK [0] [] 23 none none none = none ∧
    splineModelNew exK [0, 1] [0, 1] 0 none none none = none ∧
    splineModelNew exK [0, 1] [0, 1] 23 none none none = none ∧
    knot_shift_aggregate exK exBase1 1 2 1 1 = none ∧
    knot_shift_aggregate exK exBase1 0 (1/2) 1 1 = none ∧
    refine exK exBase1 1 0 = none ∧
    refine exK exBase1 (-1) 5 = none :=
  ⟨construction_error_cases.1 exK [0] [] 23 none none none (by decide),
   construction_error_cases.2.1 exK [0, 1] [0, 1] none none none,
   construction_error_cases.2.2.1 exK [0, 1] [0, 1] 23 none none (by decide),
   construction_error_cases.2.2.2.1 exK exBase1 1 2 1 1 (by norm_num),
   construction_error_cases.2.2.2.2.1 exK exBase1 0 (1/2) 1 1 (by norm_num),
   construction_error_cases.2.2.2.2.2.1 exK exBase1 1 0 (by norm_num),
   construction_error_cases.2.2.2.2.2.2 exK exBase1 (-1) 5 (by norm_num)⟩

/-- C10: `N = len(y) // nknots` is computed before the override check, so a
zero `nknots` fails construction (division by zero) even when `knotsOverride`
is supplied; and when the override is supplied and `nknots ≥ 1`, the resulting
knot set is exactly the override and `nknots` has no further effect on the
result. -/
theorem nknots_before_override :
    (∀ (K : Kernel) (t y : List ℚ) (ov wOpt : Option (List ℚ))
      (sa : Option FitConfig), splineModelNew K t y 0 ov wOpt sa = none) ∧
    (∀ (K : Kernel) (t y ks : List ℚ) (nknots : ℤ) (wOpt : Option (List ℚ))
      (sa : Option FitConfig) (mm : SplineModel), 1 ≤ nknots →
      splineModelNew K t y nknots (some ks) wOpt sa = some mm → mm.knots = ks) ∧
    (∀ (K : Kernel) (t y ks : List ℚ) (nknots nknots' : ℤ)
      (wOpt : Option (List ℚ)) (sa : Option FitConfig),
      1 ≤ nknots → 1 ≤ nknots' →
      splineModelNew K t y nknots (some ks) wOpt sa =
        splineModelNew K t y nknots' (some ks) wOpt sa) := by
  refine ⟨?_, ?_, ?_⟩
  · intro K t y ov wOpt sa
    exact splineModelNew_nknots_zero K t y ov wOpt sa
  · intro K t y ks nknots wOpt sa mm hnk h
    by_cases hlen : t.length = y.length
    · rw [splineModelNew_override K t y ks nknots wOpt sa hlen (by omega) ?hwl] at h
      · obtain rfl := (Option.some.injEq _ _).mp h
        rfl
      · by_contra hwl
        rw [show splineModelNew K t y nknots (some ks) wOpt sa =
          (if t.length = y.length then
            if nknots = 0 then none
            else
              replace_mask K
                { t := t, y := y, knots := ks,
                  w := wOpt.getD (List.replicate t.length 1), selfPred := [],
                  rmad := 0, statsDirty := true, kwargsSave := mkKwargs sa }
                (wOpt.getD (List.replicate t.length 1))
          else none) from rfl, if_pos hlen, if_neg (by omega : ¬ (nknots = 0))] at h
        unfold replace_mask at h
        rw [if_neg hwl] at h
        cases h
    · rw [splineModelNew_len_none K t y nknots (some ks) wOpt sa hlen] at h
      cases h
  · intro K t y ks nknots nknots' wOpt sa hnk hnk'
    by_cases hlen : t.length = y.length
    · rw [show splineModelNew K t y nknots (some ks) wOpt sa =
        (if t.length = y.length then
          if nknots = 0 then none
          else
            replace_mask K
              { t := t, y := y, knots := ks,
                w := wOpt.getD (List.replicate t.length 1), selfPred := [],
                rmad := 0, statsDirty := true, kwargsSave := mkKwargs sa }
              (wOpt.getD (List.replicate t.length 1))
        else none) from rfl,
        show splineModelNew K t y nknots' (some ks) wOpt sa =
        (if t.length = y.length then
          if nknots' = 0 then none
          else
            replace_mask K
              { t := t, y := y, knots := ks,
                w := wOpt.getD (List.replicate t.length 1), selfPred := [],
                rmad := 0, statsDirty := true, kwargsSave := mkKwargs sa }
              (wOpt.getD (List.replicate t.length 1))
        else none) from rfl,
        if_pos hlen, if_pos hlen, if_neg (by omega : ¬ (nknots = 0)),
        if_neg (by omega : ¬ (nknots' = 0))]
    · rw [splineModelNew_len_none K t y nknots (some ks) wOpt sa hlen,
        splineModelNew_len_none K t y nknots' (some ks) wOpt sa hlen]

/-- Witness for C10 at concrete inputs. -/
theorem nknots_before_override_witness :
    splineModelNew exK [0] [0] 0 (some [1/2]) none none = none ∧
    exBase1.knots = [3/2] ∧
    splineModelNew exK exT4 exY4 5 (some [3/2]) (some exW4) none =
      splineModelNew exK exT4 exY4 7 (some [3/2]) (some exW4) none :=
  ⟨nknots_before_override.1 exK [0] [0] (some [1/2]) none none,
   nknots_before_override.2.1 exK exT4 exY4 [3/2] 23 (some exW4) none exBase1
     (by norm_num) exBase1_def,
   nknots_before_override.2.2 exK exT4 exY4 [3/2] 5 7 (some exW4) none
     (by norm_num) (by norm_num)⟩

end Aalr
